import Mathlib

/-!
# Verification development for the on_search ingestion adapter

Shallow embedding of the ingestion pipeline of the seller edge service:

* `internal/shared/error/error.go`            : `CustomError`, `NewCustomError`, the error table,
  `ErrorHandler`
* `internal/adapters/validation/jsonschema_validator.go` : `schemaKey`, `NewJSONSchemaValidator`,
  `JSONSchemaValidator.Validate`
* `internal/adapters/storage/minio_storage.go` : `MinIOStorage.Upload`, `MinIOStorage.GetBucket`
* `internal/ports/onsearch.go`                 : the three port interfaces
* `internal/domain/onsearch_service.go`        : `onSearchPointer`, `OnSearchService.HandleOnSearch`
* `internal/handlers/onsearch_handler.go`      : `OnSearchHandler.HandleOnSearch`
* `internal/shared/middleware/logging.go`      : `DefaultLoggingConfig`, `LoggingMiddleware`
* `internal/adapters/messaging/kafka_publisher.go` : `NewKafkaPublisher`

Conventions of the embedding

* a Go `string` is a Lean `String`, a Go `[]byte` is a `List UInt8`;
* a Go `error` value is represented by the text of its `Error()` method, so a Go result
  `(T, error)` is an `Except String T`;
* a call that may end in a runtime fault (a Go panic) returns a `Run`; the recovered value is
  represented by its `%v` rendering;
* a value of Go type `any` is a `GoAny`;
* a parsed JSON object keeps its members in textual order under their keys as written, and
  a lookup on it follows fastjson: keys as written first, unescaped keys on a miss, the
  unescaping being kept for the lookups that follow;
* the status code of a response is the one `StatusCode()` reports: a stored code of 0 is
  reported as 200;
* stateful collaborators (the ports, the clock, the uuid source) thread an explicit world `σ`;
* every call of a port method is recorded, with its arguments and what it returned, in a
  trace of `PortCall`s;
* logging calls are fire-and-forget and are left out, except in the logging middleware, where
  the calls on package `log` are recorded.
-/

set_option autoImplicit false
set_option maxRecDepth 100000

/-! ## Part I : definitions -/

/-- Go `[]byte`. -/
abbrev Bytes := List UInt8

/-- Go `[]byte(s)` for a string `s`. -/
def bytesOf (s : String) : Bytes := s.toUTF8.data.toList

/-- Result of running a call that may end in a runtime fault. -/
inductive Run (α : Type) where
  | ret (a : α)
  | panic (r : String)
deriving DecidableEq, Repr

/-! ### `fmt` -/

/-- Verb expansion of `fmt.Sprintf` for the verbs the repository uses (`%s`, `%v`, `%w`, `%%`)
with operands that are strings or errors.  A verb without an operand is rendered the way
Go renders it.  Every call in the repository has as many operands as verbs. -/
def fmtExpand : List Char → List String → List Char
  | [], _ => []
  | '%' :: '%' :: rest, args => '%' :: fmtExpand rest args
  | '%' :: 's' :: rest, a :: args => a.data ++ fmtExpand rest args
  | '%' :: 'v' :: rest, a :: args => a.data ++ fmtExpand rest args
  | '%' :: 'w' :: rest, a :: args => a.data ++ fmtExpand rest args
  | '%' :: 's' :: rest, [] => "%!s(MISSING)".data ++ fmtExpand rest []
  | '%' :: 'v' :: rest, [] => "%!v(MISSING)".data ++ fmtExpand rest []
  | '%' :: 'w' :: rest, [] => "%!w(MISSING)".data ++ fmtExpand rest []
  | c :: rest, args => c :: fmtExpand rest args

/-- Go `fmt.Sprintf` (and the message of `fmt.Errorf`). -/
def Sprintf (format : String) (args : List String) : String :=
  ⟨fmtExpand format.data args⟩

/-! ### `internal/shared/error/error.go` -/

/-- A value of Go type `any`: the nil interface, a string, or a value of another type.  A
value of another type is known by its Go rendering when `json.Marshal` encodes it, and by
the error `json.Marshal` answers it with when it does not (a channel, a function, a
marshaler that fails). -/
inductive GoAny where
  | null
  | str (s : String)
  | other (rendering : String)
  | unencodable (err : String)
deriving DecidableEq, Repr

/-- The `CustomError` struct.  `Details` has Go type `any`; the zero value is the nil
interface. -/
structure CustomError where
  Message : String
  Code : String
  HTTPCode : Int
  Details : GoAny
deriving DecidableEq, Repr

/-- `NewCustomError(httpCode, code, message, details...)`. -/
def NewCustomError (httpCode : Int) (code message : String) (details : List GoAny) :
    CustomError :=
  let err : CustomError :=
    { HTTPCode := httpCode, Code := code, Message := message, Details := .null }
  if h : details.length > 0 then { err with Details := details[0] } else err

def ErrDatabaseQueryFailed : CustomError :=
  NewCustomError 500 "DB_2002" "Database query failed" []

def ErrInvalidRequestBody : CustomError :=
  NewCustomError 400 "REQUEST_2001" "Invalid request body" []

def ErrMissingRequiredField : CustomError :=
  NewCustomError 400 "REQUEST_2002" "Missing required field" []

def ErrHTTPInternalServer : CustomError :=
  NewCustomError 500 "HTTP_500" "Internal Server Error" []

/-! ### `internal/adapters/validation/jsonschema_validator.go` -/

/-- `schemaKey(domain, action)`. -/
def schemaKey (domain action : String) : String :=
  Sprintf "%s:%s" [domain, action]

/-- The parts of the `jsonschema` and `encoding/json` libraries the validator calls, and the
two embedded schema resources (their files are not part of the sources at hand).
`κ` is the state of a schema compiler, `S` a compiled schema, `D` a decoded document.
`AddResource` takes the resource name and the reader, given by its bytes. -/
structure SchemaLib (κ S D : Type) where
  NewCompiler : κ
  AddResource : κ → String → Bytes → Except String κ
  Compile : κ → String → Except String (S × κ)
  Unmarshal : Bytes → Except String D
  Validate : S → D → Except String Unit
  ret11OnSearchSchema : Bytes
  ret18SearchSchema : Bytes

/-- Assignment `m[k] = v` on a Go map, the map being kept as an association list. -/
def mapSet {S : Type} (m : List (String × S)) (k : String) (v : S) : List (String × S) :=
  (k, v) :: m.filter fun kv => !(kv.1 == k)

/-- Lookup `m[k]` (the comma-ok form) on a Go map. -/
def mapGet {S : Type} : List (String × S) → String → Option S
  | [], _ => none
  | (k, v) :: m, key => if k = key then some v else mapGet m key

/-- The `JSONSchemaValidator` struct. -/
structure JSONSchemaValidator (S : Type) where
  schemas : List (String × S)

/-- `NewJSONSchemaValidator()`. -/
def NewJSONSchemaValidator {κ S D : Type} (lib : SchemaLib κ S D) :
    Except String (JSONSchemaValidator S) :=
  let compiler := lib.NewCompiler
  let schemas : List (String × S) := []
  match lib.AddResource compiler "ret11_on_search.schema.json" lib.ret11OnSearchSchema with
  | .error err => .error (Sprintf "failed to load RET11 on_search schema: %w" [err])
  | .ok compiler =>
    match lib.Compile compiler "ret11_on_search.schema.json" with
    | .error err => .error (Sprintf "failed to compile RET11 on_search schema: %w" [err])
    | .ok (ret11Schema, compiler) =>
      let schemas := mapSet schemas (schemaKey "ONDC:RET11" "on_search") ret11Schema
      match lib.AddResource compiler "ret18_search.schema.json" lib.ret18SearchSchema with
      | .error err => .error (Sprintf "failed to load RET18 search schema: %w" [err])
      | .ok compiler =>
        match lib.Compile compiler "ret18_search.schema.json" with
        | .error err => .error (Sprintf "failed to compile RET18 search schema: %w" [err])
        | .ok (ret18Schema, _) =>
          let schemas := mapSet schemas (schemaKey "ONDC:RET18" "search") ret18Schema
          .ok { schemas := schemas }

/-- `(*JSONSchemaValidator).Validate(ctx, domain, action, payload)`. -/
def JSONSchemaValidator.Validate {κ S D : Type} (lib : SchemaLib κ S D)
    (v : JSONSchemaValidator S) (domain action : String) (payload : Bytes) :
    Except String Unit :=
  let key := schemaKey domain action
  match mapGet v.schemas key with
  | none => .error (Sprintf "no schema found for domain=%s, action=%s" [domain, action])
  | some schema =>
    match lib.Unmarshal payload with
    | .error err => .error (Sprintf "invalid JSON payload: %w" [err])
    | .ok data =>
      match lib.Validate schema data with
      | .error err => .error (Sprintf "validation failed for %s: %w" [key, err])
      | .ok _ => .ok ()

/-- A schema library in which every call succeeds and every document is accepted unless it
is empty; used to run the validator on concrete inputs. -/
def demoSchemaLib : SchemaLib Unit String Bytes where
  NewCompiler := ()
  AddResource := fun _ _ _ => .ok ()
  Compile := fun _ name => .ok (name, ())
  Unmarshal := fun b => if b.length = 0 then .error "unexpected end of JSON input" else .ok b
  Validate := fun _ _ => .ok ()
  ret11OnSearchSchema := []
  ret18SearchSchema := []

/-- The validator built over `demoSchemaLib`. -/
def demoValidator : JSONSchemaValidator String :=
  { schemas := [("ONDC:RET18:search", "ret18_search.schema.json"),
                ("ONDC:RET11:on_search", "ret11_on_search.schema.json")] }

/-! ### `fastjson` values and accessors -/

/-- A `fastjson.Value` as the parser returns it.  The members of an object are kept in
textual order, each under its key as written between the quotes, escape sequences
included: the parser does not unescape keys.  A string holds its unescaped text. -/
inductive Value where
  | null
  | vtrue
  | vfalse
  | number (raw : String)
  | string (s : String)
  | array (a : List Value)
  | object (kvs : List (String × Value))

/-- A `fastjson.Object` in use: the members under their current keys, and the flag
`keysUnescaped`.  In a freshly parsed document the keys are as written and the flag is
false. -/
structure Object where
  kvs : List (String × Value)
  keysUnescaped : Bool

/-- The loop `for _, kv := range o.kvs { if kv.k == key { return kv.v } }` of
`(*Object).Get`: the value of the first member stored under `key`. -/
def findKey : List (String × Value) → String → Option Value
  | [], _ => none
  | (k, v) :: kvs, key => if k = key then some v else findKey kvs key

/-- `(*Object).unescapeKeys()`: unless done before, every key is replaced by its unescaped
form and the flag is set.  `unescape` is fastjson's `unescapeStringBestEffort`. -/
def Object.unescapeKeys (unescape : String → String) (o : Object) : Object :=
  if o.keysUnescaped then o
  else { kvs := o.kvs.map fun kv => (unescape kv.1, kv.2), keysUnescaped := true }

/-- `(*Object).Get(key)`, returning the value found (`none` is nil) and the object as the
call leaves it.  While the keys are not unescaped and `key` holds no backslash, the keys as
written are scanned first; on a miss the keys are unescaped, for good, and scanned
again. -/
def Object.Get (unescape : String → String) (o : Object) (key : String) :
    Option Value × Object :=
  match (if !o.keysUnescaped && !key.data.contains '\\' then findKey o.kvs key else none) with
  | some v => (some v, o)
  | none =>
    let o := o.unescapeKeys unescape
    (findKey o.kvs key, o)

/-- Value of a run of decimal digits, `none` when a character is not a digit. -/
def digitsValue : List Char → Nat → Option Nat
  | [], acc => some acc
  | c :: cs, acc => if c.isDigit then digitsValue cs (acc * 10 + (c.toNat - 48)) else none

/-- Go `strconv.Atoi` on a 64-bit platform. -/
def Atoi (s : String) : Option Int :=
  let body (cs : List Char) : Option Nat := if cs = [] then none else digitsValue cs 0
  match s.data with
  | '-' :: cs => (body cs).bind fun n => if n ≤ 2 ^ 63 then some (-(n : Int)) else none
  | '+' :: cs => (body cs).bind fun n => if n < 2 ^ 63 then some (n : Int) else none
  | cs => (body cs).bind fun n => if n < 2 ^ 63 then some (n : Int) else none

/-- `(*Value).Get(keys...)` on a freshly parsed value; the receiver is `some v` for a
non-nil value. -/
def Value.Get (unescape : String → String) : List String → Value → Option Value
  | [], v => some v
  | key :: keys, .object kvs =>
    match (Object.Get unescape { kvs := kvs, keysUnescaped := false } key).1 with
    | none => none
    | some v => Value.Get unescape keys v
  | key :: keys, .array a =>
    match Atoi key with
    | none => none
    | some n =>
      if n < 0 ∨ n ≥ a.length then none
      else match a.get? n.toNat with
        | none => none
        | some v => Value.Get unescape keys v
  | _ :: _, _ => none

/-- `(*Value).GetObject(keys...)` on a freshly parsed value: the object found, not yet
looked into. -/
def Value.GetObject (unescape : String → String) (keys : List String) (v : Value) :
    Option Object :=
  match Value.Get unescape keys v with
  | some (.object kvs) => some { kvs := kvs, keysUnescaped := false }
  | _ => none

/-- `(*Value).GetStringBytes()` without keys: nil unless the value is a string. -/
def Value.GetStringBytes : Value → Option String
  | .string s => some s
  | _ => none

/-- Go `string(b)` for the result of `GetStringBytes`: a nil slice converts to `""`. -/
def goString : Option String → String
  | none => ""
  | some s => s

/-- The value is a JSON object. -/
def Value.isObject : Value → Bool
  | .object _ => true
  | _ => false

/-- The value is a JSON string. -/
def Value.isString : Value → Bool
  | .string _ => true
  | _ => false

/-! ### `strings`, `time`, `uuid` -/

/-- Worker of `strings.ReplaceAll` on characters: `skip` counts the characters of a match
that are still to be dropped. -/
def replaceChars (old new : List Char) : Nat → List Char → List Char
  | _, [] => if old = [] then new else []
  | skip + 1, _ :: cs => replaceChars old new skip cs
  | 0, c :: cs =>
    if old = [] then new ++ c :: replaceChars old new 0 cs
    else if old.isPrefixOf (c :: cs) then new ++ replaceChars old new (old.length - 1) cs
    else c :: replaceChars old new 0 cs

/-- Go `strings.ReplaceAll(s, old, new)`: every non-overlapping instance of `old`, leftmost
first, is replaced by `new`. -/
def ReplaceAll (s old new : String) : String :=
  ⟨replaceChars old.data new.data 0 s.data⟩

/-- A `*time.Location`, known by its name. -/
structure Location where
  name : String
deriving DecidableEq, Repr

/-- Go `time.UTC`. -/
def UTC : Location := { name := "UTC" }

/-- The calendar fields of a `time.Time` in its location. -/
structure CivilTime where
  Year : Nat
  Month : Nat
  Day : Nat
  Hour : Nat
  Minute : Nat
  Second : Nat
deriving DecidableEq, Repr

/-- Go `appendInt(b, x, width)` of package `time` for `x ≥ 0`: decimal digits, zero padded to
at least `width`. -/
def appendInt (x width : Nat) : List Char :=
  let ds := Nat.toDigits 10 x
  List.replicate (width - ds.length) '0' ++ ds

/-- Hour on the 12-hour clock, as `time.Format` prints it. -/
def hour12 (h : Nat) : Nat := if h % 12 = 0 then 12 else h % 12

/-- Layout interpretation of `Time.Format` for the numeric layout elements (`2006`, `06`,
`01`, `1`, `02`, `2`, `15`, `03`, `3`, `04`, `4`, `05`, `5`); the separators `-` (not
followed by `07`) and `_` (not followed by `2`) are copied through.  Month and weekday
names, zones, fractional seconds, `_2` and `002` are not modelled: the layout the service
uses has none of them. -/
def formatLayout (t : CivilTime) : List Char → List Char
  | [] => []
  | '2' :: '0' :: '0' :: '6' :: rest => appendInt t.Year 4 ++ formatLayout t rest
  | '0' :: '1' :: rest => appendInt t.Month 2 ++ formatLayout t rest
  | '0' :: '2' :: rest => appendInt t.Day 2 ++ formatLayout t rest
  | '0' :: '3' :: rest => appendInt (hour12 t.Hour) 2 ++ formatLayout t rest
  | '0' :: '4' :: rest => appendInt t.Minute 2 ++ formatLayout t rest
  | '0' :: '5' :: rest => appendInt t.Second 2 ++ formatLayout t rest
  | '0' :: '6' :: rest => appendInt (t.Year % 100) 2 ++ formatLayout t rest
  | '1' :: '5' :: rest => appendInt t.Hour 2 ++ formatLayout t rest
  | '1' :: rest => appendInt t.Month 0 ++ formatLayout t rest
  | '2' :: rest => appendInt t.Day 0 ++ formatLayout t rest
  | '3' :: rest => appendInt (hour12 t.Hour) 0 ++ formatLayout t rest
  | '4' :: rest => appendInt t.Minute 0 ++ formatLayout t rest
  | '5' :: rest => appendInt t.Second 0 ++ formatLayout t rest
  | c :: rest => c :: formatLayout t rest

/-- Go `t.Format(layout)`. -/
def CivilTime.Format (t : CivilTime) (layout : String) : String :=
  ⟨formatLayout t layout.data⟩

/-! ### `internal/ports/onsearch.go` -/

/-- Port `SchemaValidator`. -/
structure SchemaValidator (σ : Type) where
  Validate : String → String → Bytes → σ → Run (Except String Unit) × σ

/-- Port `ObjectStorage`. -/
structure ObjectStorage (σ : Type) where
  Upload : String → Bytes → String → σ → Run (Except String String) × σ
  GetBucket : σ → Run String × σ

/-- Port `EventPublisher`. -/
structure EventPublisher (σ : Type) where
  Publish : String → Bytes → Bytes → σ → Run (Except String Unit) × σ

/-- One call of a port method, with its arguments and what it returned. -/
inductive PortCall where
  | Validate (domain action : String) (payload : Bytes) (out : Run (Except String Unit))
  | Upload (objectName : String) (data : Bytes) (contentType : String)
      (out : Run (Except String String))
  | GetBucket (out : Run String)
  | Publish (topic : String) (key value : Bytes) (out : Run (Except String Unit))

/-- Which port method a recorded call is on. -/
inductive PortKind where
  | Validate
  | Upload
  | GetBucket
  | Publish
deriving DecidableEq, Repr

def PortCall.kind : PortCall → PortKind
  | .Validate _ _ _ _ => .Validate
  | .Upload _ _ _ _ => .Upload
  | .GetBucket _ => .GetBucket
  | .Publish _ _ _ _ => .Publish

/-- The call returned without fault and with a nil error. -/
def PortCall.succeeded : PortCall → Bool
  | .Validate _ _ _ (.ret (.ok _)) => true
  | .Upload _ _ _ (.ret (.ok _)) => true
  | .GetBucket (.ret _) => true
  | .Publish _ _ _ (.ret (.ok _)) => true
  | _ => false

/-- The operations of a trace: its `Validate`, `Upload` and `Publish` calls, the reads of the
bucket name left aside. -/
def operations (calls : List PortCall) : List PortCall :=
  calls.filter fun c => c.kind != PortKind.GetBucket

/-! ### `internal/adapters/storage/minio_storage.go` -/

/-- The `MinIOConfig` struct. -/
structure MinIOConfig where
  Endpoint : String
  AccessKey : String
  SecretKey : String
  UseSSL : Bool
  Bucket : String
deriving DecidableEq, Repr

/-- The one method of `*minio.Client` that `Upload` calls:
`PutObject(ctx, bucket, objectName, reader, size, opts)`, the reader given by its bytes and
the options by their content type. -/
structure MinIOClient (σ : Type) where
  PutObject :
    String → String → Bytes → Int → String → σ → Run (Except String Unit) × σ

/-- The `MinIOStorage` struct. -/
structure MinIOStorage (σ : Type) where
  client : MinIOClient σ
  cfg : MinIOConfig

/-- `(*MinIOStorage).Upload(ctx, objectName, data, contentType)`. -/
def MinIOStorage.Upload {σ : Type} (s : MinIOStorage σ) (objectName : String) (data : Bytes)
    (contentType : String) (w : σ) : Run (Except String String) × σ :=
  let reader := data
  match s.client.PutObject s.cfg.Bucket objectName reader (data.length : Int) contentType w with
  | (.panic r, w) => (.panic r, w)
  | (.ret (.error err), w) => (.ret (.error (Sprintf "failed to upload object: %w" [err])), w)
  | (.ret (.ok _), w) => (.ret (.ok objectName), w)

/-- `(*MinIOStorage).GetBucket()`. -/
def MinIOStorage.GetBucket {σ : Type} (s : MinIOStorage σ) : String :=
  s.cfg.Bucket

/-- A `*MinIOStorage` seen through the `ObjectStorage` interface. -/
def MinIOStorage.toObjectStorage {σ : Type} (s : MinIOStorage σ) : ObjectStorage σ where
  Upload := s.Upload
  GetBucket := fun w => (.ret s.GetBucket, w)

/-! ### `internal/domain/onsearch_service.go` -/

/-- Library and runtime services `HandleOnSearch` calls besides the ports. -/
structure Runtime (σ : Type) where
  /-- `fastjson.Parser.ParseBytes` -/
  ParseBytes : Bytes → Run (Except String Value)
  /-- The function `unescapeStringBestEffort` of fastjson, by which `(*Object).Get` unescapes
  the keys of an object -/
  Unescape : String → String
  /-- `time.LoadLocation` -/
  LoadLocation : String → Except String Location
  /-- `time.Now().In(loc)` -/
  NowIn : Location → σ → CivilTime
  /-- `uuid.NewString` -/
  NewString : σ → String × σ
  /-- `json.Marshal` of a struct whose exported fields are strings, given as the list of
  (member name, value) in declaration order -/
  Marshal : List (String × String) → Run (Except String Bytes)

/-- The `OnSearchService` struct. -/
structure OnSearchService (σ : Type) where
  validator : SchemaValidator σ
  storage : ObjectStorage σ
  publisher : EventPublisher σ
  onSearchTopic : String

/-- The `onSearchPointer` struct. -/
structure onSearchPointer where
  Storage : String
  Bucket : String
  ObjectKey : String
  Domain : String
  Action : String
  TransactionID : String
deriving DecidableEq, Repr

/-- The JSON members of an `onSearchPointer`, named by the struct tags, in declaration
order. -/
def onSearchPointer.members (p : onSearchPointer) : List (String × String) :=
  [("storage", p.Storage), ("bucket", p.Bucket), ("object_key", p.ObjectKey),
   ("domain", p.Domain), ("action", p.Action), ("transaction_id", p.TransactionID)]

/-- State of a run of the body of `HandleOnSearch`: the value returned (or the fault raised),
the port calls made so far, oldest first, and the world. -/
structure Exec (σ : Type) where
  res : Run (Option CustomError)
  calls : List PortCall
  world : σ

/-- What `HandleOnSearch` hands back to its caller: the error (`none` is nil), the port calls
made, oldest first, and the world left behind. -/
structure Outcome (σ : Type) where
  err : Option CustomError
  calls : List PortCall
  world : σ

/-- Step 4 of `HandleOnSearch`: build the pointer, serialize it and publish it. -/
def OnSearchService.publishStep {σ : Type} (rt : Runtime σ) (s : OnSearchService σ)
    (domain action transactionID uploadedObjectKey : String) (calls : List PortCall) (w : σ) :
    Exec σ :=
  match s.storage.GetBucket w with
  | (.panic r, w) => ⟨.panic r, calls ++ [.GetBucket (.panic r)], w⟩
  | (.ret bucket, w) =>
    let calls := calls ++ [.GetBucket (.ret bucket)]
    let pointer : onSearchPointer :=
      { Storage := "minio", Bucket := bucket, ObjectKey := uploadedObjectKey,
        Domain := domain, Action := action, TransactionID := transactionID }
    match rt.Marshal pointer.members with
    | .panic r => ⟨.panic r, calls, w⟩
    | .ret (.error err) =>
      ⟨.ret (some (NewCustomError 500 ErrHTTPInternalServer.Code
        "failed to serialize on_search pointer" [.str err])), calls, w⟩
    | .ret (.ok payloadBytes) =>
      let key := bytesOf transactionID
      match s.publisher.Publish s.onSearchTopic key payloadBytes w with
      | (.panic r, w) =>
        ⟨.panic r, calls ++ [.Publish s.onSearchTopic key payloadBytes (.panic r)], w⟩
      | (.ret (.error err), w) =>
        ⟨.ret (some (NewCustomError 500 ErrHTTPInternalServer.Code
          "failed to publish on_search pointer" [.str err])),
          calls ++ [.Publish s.onSearchTopic key payloadBytes (.ret (.error err))], w⟩
      | (.ret (.ok u), w) =>
        ⟨.ret none, calls ++ [.Publish s.onSearchTopic key payloadBytes (.ret (.ok u))], w⟩

/-- The location `HandleOnSearch` reads the clock in: `Asia/Kolkata`, or `time.UTC` when that
zone cannot be loaded. -/
def istLocation {σ : Type} (rt : Runtime σ) : Location :=
  match rt.LoadLocation "Asia/Kolkata" with
  | .error _ => UTC
  | .ok ist => ist

/-- The local `objectKey` of `HandleOnSearch`, for the clock reading `now` and the fresh
`uuid`. -/
def objectKey (domain action : String) (now : CivilTime) (transactionID uuid : String) :
    String :=
  let domainPath := ReplaceAll domain ":" "_"
  Sprintf "ondc/%s/%s/%s/%s_%s.json"
    [domainPath, action, now.Format "2006-01-02_15-04-05", transactionID, uuid]

/-- Step 3 of `HandleOnSearch`: build the object key and upload the raw payload. -/
def OnSearchService.uploadStep {σ : Type} (rt : Runtime σ) (s : OnSearchService σ)
    (payload : Bytes) (domain action transactionID : String) (calls : List PortCall) (w : σ) :
    Exec σ :=
  let now := rt.NowIn (istLocation rt) w
  let (uuid, w) := rt.NewString w
  let objectKey := objectKey domain action now transactionID uuid
  match s.storage.Upload objectKey payload "application/json" w with
  | (.panic r, w) =>
    ⟨.panic r, calls ++ [.Upload objectKey payload "application/json" (.panic r)], w⟩
  | (.ret (.error err), w) =>
    ⟨.ret (some (NewCustomError 500 ErrDatabaseQueryFailed.Code
      "failed to persist on_search payload" [.str err])),
      calls ++ [.Upload objectKey payload "application/json" (.ret (.error err))], w⟩
  | (.ret (.ok uploadedObjectKey), w) =>
    s.publishStep rt domain action transactionID uploadedObjectKey
      (calls ++ [.Upload objectKey payload "application/json" (.ret (.ok uploadedObjectKey))]) w

/-- Step 2 of `HandleOnSearch`: schema validation, routed by domain and action. -/
def OnSearchService.validateStep {σ : Type} (rt : Runtime σ) (s : OnSearchService σ)
    (payload : Bytes) (domain action transactionID : String) (w : σ) : Exec σ :=
  match s.validator.Validate domain action payload w with
  | (.panic r, w) => ⟨.panic r, [.Validate domain action payload (.panic r)], w⟩
  | (.ret (.error err), w) =>
    ⟨.ret (some (NewCustomError 400 ErrInvalidRequestBody.Code
      (Sprintf "schema validation failed: %v" [err]) [])),
      [.Validate domain action payload (.ret (.error err))], w⟩
  | (.ret (.ok u), w) =>
    s.uploadStep rt payload domain action transactionID
      [.Validate domain action payload (.ret (.ok u))] w

/-- The body of `HandleOnSearch`, before the deferred recovery.  The four lookups on the
context object run one after the other on the same object, each on the keys as the one
before left them; all four are made before the first result is tested. -/
def OnSearchService.handleBody {σ : Type} (rt : Runtime σ) (s : OnSearchService σ)
    (payload : Bytes) (w : σ) : Exec σ :=
  if payload.length = 0 then ⟨.ret (some ErrInvalidRequestBody), [], w⟩
  else
    match rt.ParseBytes payload with
    | .panic r => ⟨.panic r, [], w⟩
    | .ret (.error err) =>
      ⟨.ret (some (NewCustomError 400 ErrInvalidRequestBody.Code
        "failed to parse ONDC payload" [.str err])), [], w⟩
    | .ret (.ok v) =>
      match v.GetObject rt.Unescape ["context"] with
      | none => ⟨.ret (some ErrMissingRequiredField), [], w⟩
      | some ctxObj =>
        let domainGet := ctxObj.Get rt.Unescape "domain"
        let actionGet := domainGet.2.Get rt.Unescape "action"
        let transactionIDGet := actionGet.2.Get rt.Unescape "transaction_id"
        let messageIDGet := transactionIDGet.2.Get rt.Unescape "message_id"
        match domainGet.1, actionGet.1, transactionIDGet.1, messageIDGet.1 with
        | some domainVal, some actionVal, some transactionIDVal, some messageIDVal =>
          let domain := goString domainVal.GetStringBytes
          let action := goString actionVal.GetStringBytes
          let transactionID := goString transactionIDVal.GetStringBytes
          let messageID := goString messageIDVal.GetStringBytes
          if domain = "" ∨ action = "" ∨ transactionID = "" ∨ messageID = "" then
            ⟨.ret (some ErrMissingRequiredField), [], w⟩
          else s.validateStep rt payload domain action transactionID w
        | _, _, _, _ => ⟨.ret (some ErrMissingRequiredField), [], w⟩

/-- The deferred function of `HandleOnSearch`: a recovered fault `r` overwrites the named
result `err` with a 500 error; without a fault the returned error stands. -/
def recoverErr : Run (Option CustomError) → Option CustomError
  | .panic r =>
    some (NewCustomError 500 ErrHTTPInternalServer.Code "internal server error"
      [.str (Sprintf "%v" [r])])
  | .ret err => err

/-- `(*OnSearchService).HandleOnSearch(ctx, payload)`: the body under its deferred
`recover`. -/
def OnSearchService.HandleOnSearch {σ : Type} (rt : Runtime σ) (s : OnSearchService σ)
    (payload : Bytes) (w : σ) : Outcome σ :=
  let e := s.handleBody rt payload w
  { err := recoverErr e.res, calls := e.calls, world := e.world }

/-! ### Vocabulary of the specification -/

/-- The four members of the context envelope the pipeline requires, in the order in which
`HandleOnSearch` looks them up. -/
def requiredFields : List String := ["domain", "action", "transaction_id", "message_id"]

/-- The document has a top-level `context` object: it is an object, and a member of it
named `context`, as written or once unescaped, is an object. -/
def hasContextObject (unescape : String → String) : Value → Bool
  | .object kvs =>
    kvs.any fun kv => (kv.1 == "context" || unescape kv.1 == "context") && kv.2.isObject
  | _ => false

/-- The members `kvs` of an object lack `name`: no member is named so, as written or once
unescaped. -/
def lacksMember (unescape : String → String) (kvs : List (String × Value)) (name : String) :
    Bool :=
  kvs.all fun kv => kv.1 != name && unescape kv.1 != name

/-- The value the lookup hands `HandleOnSearch` for member `name` of the context object
`ctxObj`, the four names being looked up on it in the order `domain`, `action`,
`transaction_id`, `message_id`; `none` when the lookup returns nil. -/
def contextValue (unescape : String → String) (ctxObj : Object) (name : String) :
    Option Value :=
  let domainGet := ctxObj.Get unescape "domain"
  let actionGet := domainGet.2.Get unescape "action"
  let transactionIDGet := actionGet.2.Get unescape "transaction_id"
  let messageIDGet := transactionIDGet.2.Get unescape "message_id"
  if name = "domain" then domainGet.1
  else if name = "action" then actionGet.1
  else if name = "transaction_id" then transactionIDGet.1
  else if name = "message_id" then messageIDGet.1
  else none

/-- The string `HandleOnSearch` extracts for member `name` of the context object: the text
of the value the lookup returns when that is a JSON string, and `""` otherwise. -/
def contextField (unescape : String → String) (ctxObj : Object) (name : String) : String :=
  match contextValue unescape ctxObj name with
  | none => ""
  | some v => goString v.GetStringBytes

/-- The text of the first member of `kvs` written `name`, when there is one and it is a
JSON string, and `""` otherwise. -/
def writtenField (kvs : List (String × Value)) (name : String) : String :=
  match findKey kvs name with
  | none => ""
  | some v => goString v.GetStringBytes

/-- Decimal rendering of `x`, zero padded on the left to `width` digits. -/
def zeroPad (width x : Nat) : String :=
  ⟨List.replicate (width - (Nat.repr x).length) '0'⟩ ++ Nat.repr x

/-- The stamp `YYYY-MM-DD_HH-MM-SS` of the specification. -/
def specStamp (t : CivilTime) : String :=
  zeroPad 4 t.Year ++ "-" ++ zeroPad 2 t.Month ++ "-" ++ zeroPad 2 t.Day ++ "_" ++
    zeroPad 2 t.Hour ++ "-" ++ zeroPad 2 t.Minute ++ "-" ++ zeroPad 2 t.Second

/-- The domain with every colon replaced by an underscore, as the specification words it. -/
def specDomainSegment (domain : String) : String :=
  ⟨domain.data.map fun c => if c = ':' then '_' else c⟩

/-- The StoredObjectKey of the specification:
`ondc/{domain segment}/{action}/{stamp}/{transactionID}_{uuid}.json`. -/
def specObjectKey (domain action : String) (t : CivilTime) (transactionID uuid : String) :
    String :=
  "ondc/" ++ specDomainSegment domain ++ "/" ++ action ++ "/" ++ specStamp t ++ "/" ++
    transactionID ++ "_" ++ uuid ++ ".json"

/-- Lower-case hexadecimal digit. -/
def isLowerHex (c : Char) : Bool :=
  ('0' ≤ c && c ≤ '9') || ('a' ≤ c && c ≤ 'f')

/-- Characters of the canonical UUID text from position `i` on: hyphens at positions 8, 13,
18 and 23, hexadecimal digits elsewhere. -/
def uuidCharsFrom : Nat → List Char → Bool
  | _, [] => true
  | i, c :: cs =>
    (if i = 8 ∨ i = 13 ∨ i = 18 ∨ i = 23 then c == '-' else isLowerHex c) &&
      uuidCharsFrom (i + 1) cs

/-- The canonical 36-character form `xxxxxxxx-xxxx-xxxx-xxxx-xxxxxxxxxxxx` that
`uuid.NewString` returns. -/
def isCanonicalUUID (u : String) : Bool :=
  u.data.length == 36 && uuidCharsFrom 0 u.data

/-! ### A concrete deployment, for running the definitions -/

/-- World of the concrete deployment: the objects held by the store, keyed by bucket and
object name, and the messages accepted by the broker, newest first. -/
structure DemoWorld where
  objects : List ((String × String) × Bytes)
  messages : List (String × Bytes × Bytes)

/-- The empty world. -/
def demoWorld : DemoWorld := { objects := [], messages := [] }

/-- A RET18 search callback. -/
def demoPayload : Bytes :=
  bytesOf ("\x7b\"context\":\x7b\"domain\":\"ONDC:RET18\",\"action\":\"search\"," ++
    "\"transaction_id\":\"t1\",\"message_id\":\"m1\"\x7d,\"message\":\x7b\x7d\x7d")

/-- The document `demoPayload` parses to. -/
def demoValue : Value :=
  .object [("context", .object [("domain", .string "ONDC:RET18"), ("action", .string "search"),
      ("transaction_id", .string "t1"), ("message_id", .string "m1")]),
    ("message", .object [])]

/-- A callback whose context has no `domain`. -/
def demoPayloadNoDomain : Bytes :=
  bytesOf ("\x7b\"context\":\x7b\"action\":\"search\"," ++
    "\"transaction_id\":\"t1\",\"message_id\":\"m1\"\x7d\x7d")

/-- The document `demoPayloadNoDomain` parses to. -/
def demoValueNoDomain : Value :=
  .object [("context", .object [("action", .string "search"),
      ("transaction_id", .string "t1"), ("message_id", .string "m1")])]

/-- Serializer of the concrete deployment: the members as a JSON object, for values that
need no escaping. -/
def demoMarshal (members : List (String × String)) : Run (Except String Bytes) :=
  .ret (.ok (bytesOf ("\x7b" ++
    ",".intercalate (members.map fun m => "\"" ++ m.1 ++ "\":\"" ++ m.2 ++ "\"") ++ "\x7d")))

/-- Unescaping in the concrete deployment: the two escaped keys its documents use,
spellings of `domain` and `action`, are known; text without a backslash is left as it
is. -/
def demoUnescape (s : String) : String :=
  if s = "d\\u006fmain" then "domain"
  else if s = "acti\\u006fn" then "action"
  else s

/-- Runtime of the concrete deployment: a parser that knows the two demo documents, a
stopped clock and a fixed uuid. -/
def demoRuntime : Runtime DemoWorld where
  ParseBytes := fun b =>
    if b = demoPayload then .ret (.ok demoValue)
    else if b = demoPayloadNoDomain then .ret (.ok demoValueNoDomain)
    else .ret (.error "cannot parse JSON")
  Unescape := demoUnescape
  LoadLocation := fun name => .ok { name := name }
  NowIn := fun _ _ => { Year := 2024, Month := 3, Day := 9, Hour := 14, Minute := 5, Second := 7 }
  NewString := fun w => ("123e4567-e89b-42d3-a456-426614174000", w)
  Marshal := demoMarshal

/-- MinIO client of the concrete deployment: `PutObject` always succeeds and stores the
bytes under (bucket, object name). -/
def demoClient : MinIOClient DemoWorld where
  PutObject := fun bucket objectName data _ _ w =>
    (.ret (.ok ()), { w with objects := ((bucket, objectName), data) :: w.objects })

/-- Storage adapter of the concrete deployment. -/
def demoStorage : MinIOStorage DemoWorld :=
  { client := demoClient,
    cfg := { Endpoint := "localhost:9000", AccessKey := "ak", SecretKey := "sk",
             UseSSL := false, Bucket := "ondc-payloads" } }

/-- Validator port of the concrete deployment: the JSON schema validator over
`demoSchemaLib`. -/
def demoValidatorPort : SchemaValidator DemoWorld where
  Validate := fun domain action payload w =>
    (.ret (demoValidator.Validate demoSchemaLib domain action payload), w)

/-- Publisher of the concrete deployment: the broker accepts every message. -/
def demoPublisher : EventPublisher DemoWorld where
  Publish := fun topic key value w =>
    (.ret (.ok ()), { w with messages := (topic, key, value) :: w.messages })

/-- Publisher whose broker is unreachable. -/
def downPublisher : EventPublisher DemoWorld where
  Publish := fun _ _ _ w =>
    (.ret (.error "failed to publish kafka message: context deadline exceeded"), w)

/-- The service of the concrete deployment. -/
def demoService : OnSearchService DemoWorld :=
  { validator := demoValidatorPort, storage := demoStorage.toObjectStorage,
    publisher := demoPublisher, onSearchTopic := "ondc.on_search.pointer" }

/-- The same service with the broker unreachable. -/
def downService : OnSearchService DemoWorld :=
  { demoService with publisher := downPublisher }

/-- The key the concrete deployment stores `demoPayload` under. -/
def demoObjectKey : String :=
  "ondc/ONDC_RET18/search/2024-03-09_14-05-07/t1_123e4567-e89b-42d3-a456-426614174000.json"

/-- The pointer the concrete deployment publishes for `demoPayload`, serialized. -/
def demoPointerBytes : Bytes :=
  bytesOf ("\x7b\"storage\":\"minio\",\"bucket\":\"ondc-payloads\",\"object_key\":\"" ++
    demoObjectKey ++ "\",\"domain\":\"ONDC:RET18\",\"action\":\"search\"," ++
    "\"transaction_id\":\"t1\"\x7d")

/-! ### Failure stages of the pipeline -/

/-- The stages at which a run of the pipeline can fail: the states of the ingestion state
machine, with parsing set apart from context extraction, serialization set apart from
publishing, and the recovery of a runtime fault. -/
inductive Stage where
  | Received
  | Parsed
  | ContextExtraction
  | Validated
  | Stored
  | Serialized
  | Published
  | Recovered
deriving DecidableEq, Repr

/-- The stages whose failures are the fault of the client. -/
def Stage.clientFault : Stage → Bool
  | .Received | .Parsed | .ContextExtraction | .Validated => true
  | .Stored | .Serialized | .Published | .Recovered => false

/-- The error codes `HandleOnSearch` uses at the client-fault stages. -/
def clientCodes : List String := [ErrInvalidRequestBody.Code, ErrMissingRequiredField.Code]

/-- The error codes `HandleOnSearch` uses at the server-fault stages. -/
def serverCodes : List String := [ErrDatabaseQueryFailed.Code, ErrHTTPInternalServer.Code]

/-- The value of the runtime fault a recorded call ended in, if it ended in one. -/
def PortCall.fault : PortCall → Option String
  | .Validate _ _ _ (.panic r) => some r
  | .Upload _ _ _ (.panic r) => some r
  | .GetBucket (.panic r) => some r
  | .Publish _ _ _ (.panic r) => some r
  | _ => none

/-- A run of `HandleOnSearch` on `payload` that left the trace `calls` failed at the given
stage with error `e`: what made it fail there, and the error the code builds at that
point. -/
def FailedAt {σ : Type} (rt : Runtime σ) (payload : Bytes) (calls : List PortCall)
    (e : CustomError) : Stage → Prop
  | .Received => payload = [] ∧ e = ErrInvalidRequestBody
  | .Parsed =>
    payload ≠ [] ∧ ∃ msg, rt.ParseBytes payload = .ret (.error msg) ∧
      e = NewCustomError 400 ErrInvalidRequestBody.Code "failed to parse ONDC payload"
        [.str msg]
  | .ContextExtraction =>
    payload ≠ [] ∧ (∃ v, rt.ParseBytes payload = .ret (.ok v)) ∧ calls = [] ∧
      e = ErrMissingRequiredField
  | .Validated =>
    ∃ domain action msg,
      calls = [.Validate domain action payload (.ret (.error msg))] ∧
      e = NewCustomError 400 ErrInvalidRequestBody.Code
        (Sprintf "schema validation failed: %v" [msg]) []
  | .Stored =>
    ∃ objectName msg,
      calls.getLast?
        = some (.Upload objectName payload "application/json" (.ret (.error msg))) ∧
      e = NewCustomError 500 ErrDatabaseQueryFailed.Code
        "failed to persist on_search payload" [.str msg]
  | .Serialized =>
    ∃ bucket pointer msg,
      calls.getLast? = some (.GetBucket (.ret bucket)) ∧
      rt.Marshal (onSearchPointer.members pointer) = .ret (.error msg) ∧
      e = NewCustomError 500 ErrHTTPInternalServer.Code
        "failed to serialize on_search pointer" [.str msg]
  | .Published =>
    ∃ topic key value msg,
      calls.getLast? = some (.Publish topic key value (.ret (.error msg))) ∧
      e = NewCustomError 500 ErrHTTPInternalServer.Code
        "failed to publish on_search pointer" [.str msg]
  | .Recovered =>
    ∃ r,
      ((payload ≠ [] ∧ rt.ParseBytes payload = .panic r) ∨
        (∃ c, calls.getLast? = some c ∧ c.fault = some r) ∨
        (∃ pointer, rt.Marshal (onSearchPointer.members pointer) = .panic r)) ∧
      e = NewCustomError 500 ErrHTTPInternalServer.Code "internal server error" [.str r]

/-! ### `fiber`: errors, context and response -/

/-- A `fiber.Map`, kept as an association list. -/
abbrev FiberMap := List (String × GoAny)

/-- The values of Go type `error` a handler can return: a `*CustomError`, a `*fiber.Error`,
or an error of any other type, known by its text. -/
inductive GoError where
  | Custom (e : CustomError)
  | Fiber (Code : Int) (Message : String)
  | Other (msg : String)
deriving DecidableEq, Repr

/-- `fiber.StatusAccepted`. -/
def StatusAccepted : Int := 202

/-- `fiber.StatusInternalServerError`. -/
def StatusInternalServerError : Int := 500

/-- The part of a `*fiber.Ctx` the repository touches: path and body of the request, the
locals, and status code, body and content type of the response.  `JSONEncoder` is the
encoder configured on the app (`json.Marshal`), giving the encoding of the maps it encodes;
it fails on a map exactly when a value of the map is one it cannot encode.  `statusCode` is
the status the response reports in `c.Response().StatusCode()`; unless negative, it is
also the code on the status line. -/
structure Ctx where
  JSONEncoder : FiberMap → Bytes
  path : String
  body : Bytes
  locals : List (String × GoAny)
  statusCode : Int
  responseBody : Bytes
  contentType : String

/-- `c.Path()`. -/
def Ctx.Path (c : Ctx) : String := c.path

/-- `c.Body()`. -/
def Ctx.Body (c : Ctx) : Bytes := c.body

/-- `c.Locals(key)`: the stored value, nil when there is none. -/
def Ctx.Locals (c : Ctx) (key : String) : GoAny :=
  match mapGet c.locals key with
  | none => .null
  | some v => v

/-- `c.Locals(key, value)`. -/
def Ctx.SetLocals (c : Ctx) (key : String) (value : GoAny) : Ctx :=
  { c with locals := mapSet c.locals key value }

/-- `c.Status(status)`: fasthttp stores the code as given and reports a stored code of 0
as 200 (`StatusOK`), so that is the status the response reports after the call. -/
def Ctx.Status (c : Ctx) (status : Int) : Ctx :=
  { c with statusCode := if status = 0 then 200 else status }

/-- The error of `json.Marshal` on a map: that of the first value it cannot encode, the
members being encoded in the order of their keys; `none` when every value encodes. -/
def encodeError (data : FiberMap) : Option String :=
  let failing := data.filterMap fun kv =>
    match kv.2 with
    | .unencodable err => some (kv.1, err)
    | _ => none
  match failing with
  | [] => none
  | f :: fs => some (fs.foldl (fun first kv => if kv.1 < first.1 then kv else first) f).2

/-- `c.JSON(data)`: when the encoder fails its error is returned and the response is left
as it is; else the encoded data becomes the response body, with the JSON content type,
and the returned error is nil. -/
def Ctx.JSON (c : Ctx) (data : FiberMap) : Option GoError × Ctx :=
  match encodeError data with
  | some err => (some (.Other err), c)
  | none =>
    (none, { c with responseBody := c.JSONEncoder data, contentType := "application/json" })

/-- A `fiber.Handler` running in the world `σ`: the error returned, the context and the
world left behind. -/
abbrev Handler (σ : Type) := Ctx → σ → Option GoError × Ctx × σ

/-! ### `internal/shared/error/error.go`: `ErrorHandler` -/

/-- The function returned by `ErrorHandler()`. -/
def ErrorHandler (c : Ctx) (err : GoError) : Option GoError × Ctx :=
  let requestID := c.Locals "request_id"
  match err with
  | .Custom customErr =>
    let response : FiberMap :=
      [("error", .str customErr.Message), ("code", .str customErr.Code),
       ("details", customErr.Details)]
    let response :=
      if requestID ≠ .null then mapSet response "request_id" requestID else response
    (c.Status customErr.HTTPCode).JSON response
  | .Fiber code message =>
    let response : FiberMap := [("error", .str message)]
    let response :=
      if requestID ≠ .null then mapSet response "request_id" requestID else response
    (c.Status code).JSON response
  | .Other _ =>
    let response : FiberMap := [("error", .str "Internal server error")]
    let response :=
      if requestID ≠ .null then mapSet response "request_id" requestID else response
    (c.Status StatusInternalServerError).JSON response

/-! ### `internal/handlers/onsearch_handler.go` -/

/-- The `OnSearchHandler` struct; `none` is the nil service pointer. -/
structure OnSearchHandler (σ : Type) where
  service : Option (OnSearchService σ)

/-- What a call of the HTTP adapter leaves behind: the error returned, the context, the
world, and the outcome of the service call when the service was invoked. -/
structure Handled (σ : Type) where
  err : Option GoError
  ctx : Ctx
  world : σ
  invoked : Option (Outcome σ)

/-- `(*OnSearchHandler).HandleOnSearch(c)`. -/
def OnSearchHandler.HandleOnSearch {σ : Type} (rt : Runtime σ) (h : OnSearchHandler σ)
    (c : Ctx) (w : σ) : Handled σ :=
  match h.service with
  | none => ⟨some (.Custom ErrHTTPInternalServer), c, w, none⟩
  | some service =>
    let payload := c.Body
    if payload.length = 0 then ⟨some (.Custom ErrInvalidRequestBody), c, w, none⟩
    else
      let out := service.HandleOnSearch rt payload w
      match out.err with
      | some err => ⟨some (.Custom err), c, out.world, some out⟩
      | none =>
        let (err, c) := (c.Status StatusAccepted).JSON [("status", .str "accepted")]
        ⟨err, c, out.world, some out⟩

/-- The adapter as a `fiber.Handler`. -/
def OnSearchHandler.toHandler {σ : Type} (rt : Runtime σ) (h : OnSearchHandler σ) :
    Handler σ :=
  fun c w =>
    let r := h.HandleOnSearch rt c w
    (r.err, r.ctx, r.world)

/-! ### `internal/shared/middleware/logging.go` -/

/-- The `LoggingConfig` struct. -/
structure LoggingConfig where
  MaxBodyLogSize : Int
  SkipPaths : List String
  LogRequestBody : Bool
  LogResponseBody : Bool
deriving DecidableEq, Repr

/-- `DefaultLoggingConfig()`. -/
def DefaultLoggingConfig : LoggingConfig :=
  { MaxBodyLogSize := 1024, SkipPaths := ["/health", "/metrics"], LogRequestBody := true,
    LogResponseBody := false }

/-- The calls `LoggingMiddleware` makes on package `log`, with the arguments that do not
depend on the clock: the request id put in the context and the request body for
`RequestStart`, the error for `ErrorWithStack`, the status code and the response size for
`RequestEnd`, the response body for `Debugf`. -/
inductive LogCall where
  | RequestStart (requestID : String) (requestBody : Bytes)
  | ErrorWithStack (err : GoError)
  | RequestEnd (responseStatusCode : Int) (responseSize : Int)
  | Debugf (responseBody : Bytes)
deriving DecidableEq, Repr

/-- What a call of the logging middleware leaves behind: the error returned, the context,
the world, and the calls made on package `log`, oldest first. -/
structure Logged (σ : Type) where
  err : Option GoError
  ctx : Ctx
  world : σ
  log : List LogCall

/-- The local `cfg` of `LoggingMiddleware(config...)`: the default configuration, replaced
by the first one passed when there is one. -/
def loggingCfg (config : List LoggingConfig) : LoggingConfig :=
  match config with
  | [] => DefaultLoggingConfig
  | cfg0 :: _ => cfg0

/-- The status code passed to `log.RequestEnd`, for a call of that function. -/
def LogCall.endStatus : LogCall → Option Int
  | .RequestEnd responseStatusCode _ => some responseStatusCode
  | _ => none

/-- The handler returned by `LoggingMiddleware(config...)`; `newUUID` is
`uuid.New().String()` and `next` the rest of the handler chain, run by `c.Next()`. -/
def LoggingMiddleware {σ : Type} (newUUID : σ → String × σ) (config : List LoggingConfig)
    (next : Handler σ) (c : Ctx) (w : σ) : Logged σ :=
  let cfg := loggingCfg config
  let path := c.Path
  if cfg.SkipPaths.any (fun skipPath => path == skipPath) then
    let (err, c, w) := next c w
    ⟨err, c, w, []⟩
  else
    let (requestID, w) := newUUID w
    let c := c.SetLocals "request_id" (.str requestID)
    let requestBody : Bytes := if cfg.LogRequestBody then c.Body else []
    let log := [LogCall.RequestStart requestID requestBody]
    let (err, c, w) := next c w
    let responseStatusCode := c.statusCode
    let responseSize : Int := c.responseBody.length
    let (responseStatusCode, log) :=
      match err with
      | some e =>
        (match e with
          | .Fiber code _ => code
          | _ => StatusInternalServerError,
         log ++ [LogCall.ErrorWithStack e])
      | none => (responseStatusCode, log)
    let log := log ++ [LogCall.RequestEnd responseStatusCode responseSize]
    let log :=
      if cfg.LogResponseBody ∧ responseSize > 0 ∧ responseSize ≤ cfg.MaxBodyLogSize then
        log ++ [LogCall.Debugf c.responseBody]
      else log
    ⟨err, c, w, log⟩

/-! ### `internal/adapters/messaging/kafka_publisher.go` -/

/-- Worker of `strings.Split` on characters for a non-empty separator: `skip` counts the
characters of a separator still to be dropped, `cur` holds the piece being read, last
character first. -/
def splitChars (sep : List Char) : Nat → List Char → List Char → List (List Char)
  | _, cur, [] => [cur.reverse]
  | skip + 1, cur, _ :: cs => splitChars sep skip cur cs
  | 0, cur, c :: cs =>
    if sep.isPrefixOf (c :: cs) then cur.reverse :: splitChars sep (sep.length - 1) [] cs
    else splitChars sep 0 (c :: cur) cs

/-- Go `strings.Split(s, sep)`: the pieces of `s` between the non-overlapping instances of
`sep`, leftmost first; with an empty `sep`, the characters of `s`. -/
def Split (s sep : String) : List String :=
  if sep.data = [] then s.data.map fun c => String.mk [c]
  else (splitChars sep.data 0 [] s.data).map String.mk

/-- The `KafkaConfig` struct. -/
structure KafkaConfig where
  Brokers : String
deriving DecidableEq, Repr

/-- The fields of the `kafka.Writer` that `NewKafkaPublisher` sets.  `Addr` holds the
addresses given to `kafka.TCP`, `Balancer` the name of the balancer type, and
`RequiredAcks` is `-1` for `kafka.RequireAll`. -/
structure KafkaWriter where
  Addr : List String
  Balancer : String
  RequiredAcks : Int
  Async : Bool
deriving DecidableEq, Repr

/-- The `KafkaPublisher` struct. -/
structure KafkaPublisher where
  writer : KafkaWriter
deriving DecidableEq, Repr

/-- `NewKafkaPublisher(cfg)`. -/
def NewKafkaPublisher (cfg : KafkaConfig) : Except String KafkaPublisher :=
  let brokers := Split cfg.Brokers ","
  if brokers.length = 0 then .error (Sprintf "no kafka brokers configured" [])
  else
    let writer : KafkaWriter :=
      { Addr := brokers, Balancer := "LeastBytes", RequiredAcks := -1, Async := false }
    .ok { writer := writer }

/-! ### The concrete deployment, continued -/

/-- A callback whose `domain` is a number. -/
def demoPayloadNumericDomain : Bytes :=
  bytesOf ("\x7b\"context\":\x7b\"domain\":18,\"action\":\"search\"," ++
    "\"transaction_id\":\"t1\",\"message_id\":\"m1\"\x7d\x7d")

/-- The context object of `demoPayloadNumericDomain`. -/
def demoContextNumericDomain : Object :=
  { kvs := [("domain", .number "18"), ("action", .string "search"),
      ("transaction_id", .string "t1"), ("message_id", .string "m1")],
    keysUnescaped := false }

/-- The runtime of the concrete deployment, its parser knowing
`demoPayloadNumericDomain` as well. -/
def demoRuntimeTyped : Runtime DemoWorld :=
  { demoRuntime with
    ParseBytes := fun b =>
      if b = demoPayloadNumericDomain then
        .ret (.ok (.object [("context", .object demoContextNumericDomain.kvs)]))
      else demoRuntime.ParseBytes b }

/-- A callback whose context holds `domain` twice, the second time as the empty string. -/
def demoPayloadRepeatedEmpty : Bytes :=
  bytesOf ("\x7b\"context\":\x7b\"domain\":\"ONDC:RET18\",\"domain\":\"\"," ++
    "\"action\":\"search\",\"transaction_id\":\"t1\",\"message_id\":\"m1\"\x7d\x7d")

/-- The context object of `demoPayloadRepeatedEmpty`. -/
def demoContextRepeatedEmpty : Object :=
  { kvs := [("domain", .string "ONDC:RET18"), ("domain", .string ""),
      ("action", .string "search"), ("transaction_id", .string "t1"),
      ("message_id", .string "m1")],
    keysUnescaped := false }

/-- A callback whose context holds `domain` twice: first, its name written with an escape,
as the empty string, then written plainly. -/
def demoPayloadEscapedEmpty : Bytes :=
  bytesOf ("\x7b\"context\":\x7b\"d\\u006fmain\":\"\",\"domain\":\"ONDC:RET18\"," ++
    "\"action\":\"search\",\"transaction_id\":\"t1\",\"message_id\":\"m1\"\x7d\x7d")

/-- The context object of `demoPayloadEscapedEmpty`. -/
def demoContextEscapedEmpty : Object :=
  { kvs := [("d\\u006fmain", .string ""), ("domain", .string "ONDC:RET18"),
      ("action", .string "search"), ("transaction_id", .string "t1"),
      ("message_id", .string "m1")],
    keysUnescaped := false }

/-- A callback whose context holds `domain` twice, the second time as a number. -/
def demoPayloadRepeatedNumber : Bytes :=
  bytesOf ("\x7b\"context\":\x7b\"domain\":\"ONDC:RET18\",\"domain\":18," ++
    "\"action\":\"search\",\"transaction_id\":\"t1\",\"message_id\":\"m1\"\x7d\x7d")

/-- The context object of `demoPayloadRepeatedNumber`. -/
def demoContextRepeatedNumber : Object :=
  { kvs := [("domain", .string "ONDC:RET18"), ("domain", .number "18"),
      ("action", .string "search"), ("transaction_id", .string "t1"),
      ("message_id", .string "m1")],
    keysUnescaped := false }

/-- A callback whose context holds `domain` twice: first, its name written with an escape,
as a number, then written plainly. -/
def demoPayloadEscapedNumber : Bytes :=
  bytesOf ("\x7b\"context\":\x7b\"d\\u006fmain\":18,\"domain\":\"ONDC:RET18\"," ++
    "\"action\":\"search\",\"transaction_id\":\"t1\",\"message_id\":\"m1\"\x7d\x7d")

/-- The context object of `demoPayloadEscapedNumber`. -/
def demoContextEscapedNumber : Object :=
  { kvs := [("d\\u006fmain", .number "18"), ("domain", .string "ONDC:RET18"),
      ("action", .string "search"), ("transaction_id", .string "t1"),
      ("message_id", .string "m1")],
    keysUnescaped := false }

/-- A RET18 search callback whose context holds `domain` twice: first, its name written
with an escape, as `ONDC:RET11`, then written plainly. -/
def demoPayloadEscapedTwin : Bytes :=
  bytesOf ("\x7b\"context\":\x7b\"d\\u006fmain\":\"ONDC:RET11\"," ++
    "\"domain\":\"ONDC:RET18\",\"action\":\"search\",\"transaction_id\":\"t1\"," ++
    "\"message_id\":\"m1\"\x7d\x7d")

/-- The context object of `demoPayloadEscapedTwin`. -/
def demoContextEscapedTwin : Object :=
  { kvs := [("d\\u006fmain", .string "ONDC:RET11"), ("domain", .string "ONDC:RET18"),
      ("action", .string "search"), ("transaction_id", .string "t1"),
      ("message_id", .string "m1")],
    keysUnescaped := false }

/-- A callback in whose context `domain` is written with an escape only, and `action` twice:
first, its name written with an escape, as the empty string, then written plainly. -/
def demoPayloadEscapedOnly : Bytes :=
  bytesOf ("\x7b\"context\":\x7b\"d\\u006fmain\":\"ONDC:RET18\"," ++
    "\"acti\\u006fn\":\"\",\"action\":\"search\",\"transaction_id\":\"t1\"," ++
    "\"message_id\":\"m1\"\x7d\x7d")

/-- The context object of `demoPayloadEscapedOnly`. -/
def demoContextEscapedOnly : Object :=
  { kvs := [("d\\u006fmain", .string "ONDC:RET18"), ("acti\\u006fn", .string ""),
      ("action", .string "search"), ("transaction_id", .string "t1"),
      ("message_id", .string "m1")],
    keysUnescaped := false }

/-- A RET18 search callback that holds `context` twice, the second time as a number. -/
def demoPayloadRepeatedContext : Bytes :=
  bytesOf ("\x7b\"context\":\x7b\"domain\":\"ONDC:RET18\",\"action\":\"search\"," ++
    "\"transaction_id\":\"t1\",\"message_id\":\"m1\"\x7d,\"context\":18\x7d")

/-- The document `demoPayloadRepeatedContext` parses to. -/
def demoValueRepeatedContext : Value :=
  .object [("context", .object [("domain", .string "ONDC:RET18"), ("action", .string "search"),
      ("transaction_id", .string "t1"), ("message_id", .string "m1")]),
    ("context", .number "18")]

/-- The runtime of the concrete deployment, its parser knowing the callbacks that repeat a
member name. -/
def demoRuntimeRepeats : Runtime DemoWorld :=
  { demoRuntime with
    ParseBytes := fun b =>
      if b = demoPayloadRepeatedEmpty then
        .ret (.ok (.object [("context", .object demoContextRepeatedEmpty.kvs)]))
      else if b = demoPayloadEscapedEmpty then
        .ret (.ok (.object [("context", .object demoContextEscapedEmpty.kvs)]))
      else if b = demoPayloadRepeatedNumber then
        .ret (.ok (.object [("context", .object demoContextRepeatedNumber.kvs)]))
      else if b = demoPayloadEscapedNumber then
        .ret (.ok (.object [("context", .object demoContextEscapedNumber.kvs)]))
      else if b = demoPayloadEscapedTwin then
        .ret (.ok (.object [("context", .object demoContextEscapedTwin.kvs)]))
      else if b = demoPayloadEscapedOnly then
        .ret (.ok (.object [("context", .object demoContextEscapedOnly.kvs)]))
      else if b = demoPayloadRepeatedContext then .ret (.ok demoValueRepeatedContext)
      else demoRuntime.ParseBytes b }

/-- Validator that ends in a runtime fault. -/
def faultyValidatorPort : SchemaValidator DemoWorld where
  Validate := fun _ _ _ w =>
    (.panic "runtime error: invalid memory address or nil pointer dereference", w)

/-- The service of the concrete deployment with the faulty validator. -/
def faultyService : OnSearchService DemoWorld :=
  { demoService with validator := faultyValidatorPort }

/-- Encoder of the concrete deployment: the members as a JSON object, nil as `null`, for
strings that need no escaping. -/
def demoEncoder (m : FiberMap) : Bytes :=
  bytesOf ("\x7b" ++ ",".intercalate (m.map fun kv =>
    "\"" ++ kv.1 ++ "\":" ++
      (match kv.2 with
        | .null => "null"
        | .str s => "\"" ++ s ++ "\""
        | .other rendering => rendering
        | .unencodable _ => "")) ++ "\x7d")

/-- A fresh request on `/on-search` carrying `body`. -/
def demoCtx (body : Bytes) : Ctx :=
  { JSONEncoder := demoEncoder, path := "/on-search", body := body, locals := [],
    statusCode := 200, responseBody := [], contentType := "" }

/-- The HTTP adapter of the concrete deployment. -/
def demoHandler : OnSearchHandler DemoWorld := { service := some demoService }

/-! ## Part II : theorems -/

/-! ### The schema registry -/

theorem demoValidator_built : NewJSONSchemaValidator demoSchemaLib = .ok demoValidator := by
  rfl

theorem schemaKey_eq (domain action : String) :
    schemaKey domain action = domain ++ ":" ++ action := by
  apply String.ext
  simp [schemaKey, Sprintf, fmtExpand]

/-- A validator that was built holds exactly the two registered keys. -/
theorem schemas_of_new {κ S D : Type} (lib : SchemaLib κ S D) (v : JSONSchemaValidator S)
    (h : NewJSONSchemaValidator lib = .ok v) :
    ∃ s11 s18, v.schemas = [("ONDC:RET18:search", s18), ("ONDC:RET11:on_search", s11)] := by
  unfold NewJSONSchemaValidator at h
  simp only at h
  split at h
  · cases h
  · split at h
    · cases h
    · split at h
      · cases h
      · split at h
        · cases h
        · injection h with h
          subst h
          exact ⟨_, _, rfl⟩

/-- A pair whose key is neither registered key is answered with the unknown-schema error,
whatever the payload. -/
theorem Validate_unregistered_key {κ S D : Type} (lib : SchemaLib κ S D)
    (v : JSONSchemaValidator S) (domain action : String) (payload : Bytes)
    (h : NewJSONSchemaValidator lib = .ok v)
    (h11 : schemaKey domain action ≠ "ONDC:RET11:on_search")
    (h18 : schemaKey domain action ≠ "ONDC:RET18:search") :
    v.Validate lib domain action payload
      = .error (Sprintf "no schema found for domain=%s, action=%s" [domain, action]) := by
  obtain ⟨s11, s18, hs⟩ := schemas_of_new lib v h
  have hg : mapGet v.schemas (schemaKey domain action) = none := by
    rw [hs]
    simp [mapGet, Ne.symm h11, Ne.symm h18]
  unfold JSONSchemaValidator.Validate
  simp only [hg]

/-- C1 (as the code behaves): the pair ("ONDC", "RET11:on_search") is not registered, yet its
key `ONDC:RET11:on_search` is the key of the registered pair ("ONDC:RET11", "on_search"); the
validator therefore treats it like that pair and never answers it with the unknown-schema
error.  The key `domain + ":" + action` does not determine the pair. -/
theorem Validate_key_collision {κ S D : Type} (lib : SchemaLib κ S D)
    (v : JSONSchemaValidator S) (payload : Bytes) (h : NewJSONSchemaValidator lib = .ok v) :
    ("ONDC", "RET11:on_search") ≠ ("ONDC:RET11", "on_search") ∧
    ("ONDC", "RET11:on_search") ≠ ("ONDC:RET18", "search") ∧
    v.Validate lib "ONDC" "RET11:on_search" payload
        = v.Validate lib "ONDC:RET11" "on_search" payload ∧
    v.Validate lib "ONDC" "RET11:on_search" payload
        ≠ .error (Sprintf "no schema found for domain=%s, action=%s"
            ["ONDC", "RET11:on_search"]) := by
  obtain ⟨s11, s18, hs⟩ := schemas_of_new lib v h
  have hk : schemaKey "ONDC" "RET11:on_search" = "ONDC:RET11:on_search" := by decide
  have hk' : schemaKey "ONDC:RET11" "on_search" = "ONDC:RET11:on_search" := by decide
  have hg : mapGet v.schemas "ONDC:RET11:on_search" = some s11 := by
    rw [hs]; simp [mapGet]
  refine ⟨by decide, by decide, ?_, ?_⟩
  · unfold JSONSchemaValidator.Validate
    simp only [hk, hk', hg]
  · unfold JSONSchemaValidator.Validate
    simp only [hk, hg]
    split
    · intro hc
      injection hc with hc
      have := congrArg (fun s => s.data.head?) hc
      simp [Sprintf, fmtExpand] at this
    · split
      · intro hc
        injection hc with hc
        have := congrArg (fun s => s.data.head?) hc
        simp [Sprintf, fmtExpand] at this
      · intro hc
        cases hc

/-- The key collision on the validator of the concrete deployment. -/
theorem Validate_key_collision_witness :
    NewJSONSchemaValidator demoSchemaLib = .ok demoValidator ∧
    ("ONDC", "RET11:on_search") ≠ ("ONDC:RET11", "on_search") ∧
    ("ONDC", "RET11:on_search") ≠ ("ONDC:RET18", "search") ∧
    demoValidator.Validate demoSchemaLib "ONDC" "RET11:on_search" []
        = demoValidator.Validate demoSchemaLib "ONDC:RET11" "on_search" [] ∧
    demoValidator.Validate demoSchemaLib "ONDC" "RET11:on_search" []
        ≠ .error (Sprintf "no schema found for domain=%s, action=%s"
            ["ONDC", "RET11:on_search"]) :=
  ⟨rfl, Validate_key_collision demoSchemaLib demoValidator [] rfl⟩

/-- On the concrete validator the unregistered pair ("ONDC", "RET11:on_search") with an empty
payload is answered with the malformed-payload error. -/
theorem demoValidator_collision_run :
    demoValidator.Validate demoSchemaLib "ONDC" "RET11:on_search" []
      = .error "invalid JSON payload: unexpected end of JSON input" := by
  rfl

/-! ### Lookups on a parsed object -/

theorem findKey_mem {kvs : List (String × Value)} {key : String} {v : Value}
    (h : findKey kvs key = some v) : (key, v) ∈ kvs := by
  induction kvs with
  | nil => simp [findKey] at h
  | cons kv kvs ih =>
    obtain ⟨k, x⟩ := kv
    unfold findKey at h
    split at h
    · rename_i hk
      injection h with h
      subst hk; subst h
      exact List.mem_cons_self _ _
    · exact List.mem_cons_of_mem _ (ih h)

theorem findKey_isSome {kvs : List (String × Value)} {key : String} {v : Value}
    (h : (key, v) ∈ kvs) : ∃ x, findKey kvs key = some x := by
  induction kvs with
  | nil => cases h
  | cons kv kvs ih =>
    obtain ⟨k, x⟩ := kv
    unfold findKey
    split
    · exact ⟨x, rfl⟩
    · rename_i hk
      rcases List.mem_cons.mp h with h1 | h1
      · injection h1 with h2 h3
        exact absurd h2.symm hk
      · exact ih h1

/-- On an object whose keys are unescaped, a lookup is the scan of the stored keys and
leaves the object as it is. -/
theorem Get_of_unescaped (unescape : String → String) (o : Object) (key : String)
    (h : o.keysUnescaped = true) : o.Get unescape key = (findKey o.kvs key, o) := by
  unfold Object.Get
  simp [h, Object.unescapeKeys]

/-- On a freshly parsed object, a key without backslash that some member is written with is
answered by the first such member, and the keys stay as written. -/
theorem Get_of_written (unescape : String → String) (kvs : List (String × Value))
    (key : String) (v : Value) (hkey : '\\' ∉ key.data)
    (h : findKey kvs key = some v) :
    Object.Get unescape { kvs := kvs, keysUnescaped := false } key
      = (some v, { kvs := kvs, keysUnescaped := false }) := by
  unfold Object.Get
  simp [hkey, h]

/-- On a freshly parsed object, a key that no member is written with is answered by the
first member whose unescaped key it is, and the keys are left unescaped. -/
theorem Get_of_not_written (unescape : String → String) (kvs : List (String × Value))
    (key : String) (h : findKey kvs key = none) :
    Object.Get unescape { kvs := kvs, keysUnescaped := false } key
      = (findKey (kvs.map fun kv => (unescape kv.1, kv.2)) key,
         { kvs := kvs.map fun kv => (unescape kv.1, kv.2), keysUnescaped := true }) := by
  unfold Object.Get
  simp [h, Object.unescapeKeys]

theorem Get_snd (unescape : String → String) (o : Object) (key : String) :
    (o.Get unescape key).2 = o ∨ (o.Get unescape key).2 = o.unescapeKeys unescape := by
  unfold Object.Get
  split
  · left; rfl
  · right; rfl

theorem unescapeKeys_idem (unescape : String → String) (o : Object) :
    (o.unescapeKeys unescape).unescapeKeys unescape = o.unescapeKeys unescape := by
  unfold Object.unescapeKeys
  split
  · rename_i h; simp [h]
  · simp

theorem unescapeKeys_flag (unescape : String → String) (o : Object) :
    (o.unescapeKeys unescape).keysUnescaped = true := by
  unfold Object.unescapeKeys
  split
  · assumption
  · rfl

/-- Whatever lookups were made before, a lookup returns a member of the object as parsed:
one written `key`, or one whose unescaped key is `key`. -/
theorem Get_mem (unescape : String → String) (kvs : List (String × Value)) (o : Object)
    (ho : o = { kvs := kvs, keysUnescaped := false } ∨
      o = Object.unescapeKeys unescape { kvs := kvs, keysUnescaped := false })
    (key : String) (v : Value) (h : (o.Get unescape key).1 = some v) :
    ∃ k, (k, v) ∈ kvs ∧ (k = key ∨ unescape k = key) := by
  have hmap : ∀ {x : Value}, findKey (kvs.map fun kv => (unescape kv.1, kv.2)) key = some x →
      ∃ k, (k, x) ∈ kvs ∧ (k = key ∨ unescape k = key) := by
    intro x hx
    have := findKey_mem hx
    rw [List.mem_map] at this
    obtain ⟨⟨k, y⟩, hmem, heq⟩ := this
    simp only [Prod.mk.injEq] at heq
    obtain ⟨h1, h2⟩ := heq
    subst h2
    exact ⟨k, hmem, Or.inr h1⟩
  rcases ho with rfl | rfl
  · unfold Object.Get at h
    split at h
    · rename_i x hx
      simp only at h
      injection h with h
      subst h
      split at hx
      · exact ⟨key, findKey_mem hx, Or.inl rfl⟩
      · cases hx
    · simp only [Object.unescapeKeys] at h
      exact hmap h
  · rw [Get_of_unescaped _ _ _ (unescapeKeys_flag _ _)] at h
    simp only [Object.unescapeKeys] at h
    exact hmap h

theorem Get_none (unescape : String → String) (kvs : List (String × Value)) (o : Object)
    (ho : o = { kvs := kvs, keysUnescaped := false } ∨
      o = Object.unescapeKeys unescape { kvs := kvs, keysUnescaped := false })
    (key : String) (h : (o.Get unescape key).1 = none) :
    findKey (kvs.map fun kv => (unescape kv.1, kv.2)) key = none := by
  rcases ho with rfl | rfl
  · unfold Object.Get at h
    split at h
    · simp at h
    · simpa only [Object.unescapeKeys] using h
  · rw [Get_of_unescaped _ _ _ (unescapeKeys_flag _ _)] at h
    simpa only [Object.unescapeKeys] using h

theorem Get_reach (unescape : String → String) (kvs : List (String × Value)) (o : Object)
    (ho : o = { kvs := kvs, keysUnescaped := false } ∨
      o = Object.unescapeKeys unescape { kvs := kvs, keysUnescaped := false })
    (key : String) :
    (o.Get unescape key).2 = { kvs := kvs, keysUnescaped := false } ∨
      (o.Get unescape key).2
        = Object.unescapeKeys unescape { kvs := kvs, keysUnescaped := false } := by
  rcases Get_snd unescape o key with h | h
  · rw [h]; exact ho
  · rw [h]
    rcases ho with rfl | rfl
    · right; rfl
    · right; exact unescapeKeys_idem _ _

/-- The lookup of a name that the object lacks returns nil, whatever lookups were made
before. -/
theorem Get_of_lacks (unescape : String → String) (kvs : List (String × Value)) (o : Object)
    (ho : o = { kvs := kvs, keysUnescaped := false } ∨
      o = Object.unescapeKeys unescape { kvs := kvs, keysUnescaped := false })
    (key : String) (h : lacksMember unescape kvs key = true) :
    (o.Get unescape key).1 = none := by
  cases hres : (o.Get unescape key).1 with
  | none => rfl
  | some v =>
    obtain ⟨k, hmem, hk⟩ := Get_mem unescape kvs o ho key v hres
    have := List.all_eq_true.mp h (k, v) hmem
    simp only [Bool.and_eq_true, bne_iff_ne, ne_eq] at this
    rcases hk with hk | hk
    · exact absurd hk this.1
    · exact absurd hk this.2

/-- The lookup of a name that one member of the object bears, or several members of equal
value, returns that value, whatever lookups were made before. -/
theorem Get_of_unique (unescape : String → String)
    (hU : ∀ s : String, '\\' ∉ s.data → unescape s = s)
    (kvs : List (String × Value)) (o : Object)
    (ho : o = { kvs := kvs, keysUnescaped := false } ∨
      o = Object.unescapeKeys unescape { kvs := kvs, keysUnescaped := false })
    (key : String) (hkey : '\\' ∉ key.data) (x : Value)
    (hx : ∃ k, (k, x) ∈ kvs ∧ unescape k = key)
    (huniq : ∀ kv ∈ kvs, unescape kv.1 = key → kv.2 = x) :
    (o.Get unescape key).1 = some x := by
  cases hres : (o.Get unescape key).1 with
  | none =>
    have hnone := Get_none unescape kvs o ho key hres
    obtain ⟨k, hmem, hk⟩ := hx
    have : (key, x) ∈ kvs.map fun kv => (unescape kv.1, kv.2) := by
      rw [List.mem_map]
      exact ⟨(k, x), hmem, by simp [hk]⟩
    obtain ⟨y, hy⟩ := findKey_isSome this
    rw [hnone] at hy
    cases hy
  | some v =>
    obtain ⟨k, hmem, hk | hk⟩ := Get_mem unescape kvs o ho key v hres
    · subst hk
      exact congrArg some (huniq (k, v) hmem (hU k hkey))
    · exact congrArg some (huniq (k, v) hmem hk)

/-- Each of the four lookups of `HandleOnSearch` is a lookup on the context object as
parsed, or on it with its keys unescaped. -/
theorem contextValue_eq_Get (unescape : String → String) (kvs : List (String × Value))
    (name : String) (hname : name ∈ requiredFields) :
    ∃ o : Object,
      (o = { kvs := kvs, keysUnescaped := false } ∨
        o = Object.unescapeKeys unescape { kvs := kvs, keysUnescaped := false }) ∧
      contextValue unescape { kvs := kvs, keysUnescaped := false } name
        = (o.Get unescape name).1 := by
  have h0 : ({ kvs := kvs, keysUnescaped := false } : Object)
        = { kvs := kvs, keysUnescaped := false } ∨
      ({ kvs := kvs, keysUnescaped := false } : Object)
        = Object.unescapeKeys unescape { kvs := kvs, keysUnescaped := false } := Or.inl rfl
  have h1 := Get_reach unescape kvs _ h0 "domain"
  have h2 := Get_reach unescape kvs _ h1 "action"
  have h3 := Get_reach unescape kvs _ h2 "transaction_id"
  simp only [requiredFields, List.mem_cons, List.mem_singleton, List.mem_nil_iff,
    or_false] at hname
  rcases hname with rfl | rfl | rfl | rfl
  · exact ⟨_, h0, rfl⟩
  · exact ⟨_, h1, rfl⟩
  · exact ⟨_, h2, rfl⟩
  · exact ⟨_, h3, rfl⟩

theorem requiredFields_plain (name : String) (hname : name ∈ requiredFields) :
    '\\' ∉ name.data := by
  simp only [requiredFields, List.mem_cons, List.mem_singleton, List.mem_nil_iff,
    or_false] at hname
  rcases hname with rfl | rfl | rfl | rfl <;> decide

/-- When the context object lacks the name, the lookup returns nil. -/
theorem contextValue_of_lacks (unescape : String → String) (kvs : List (String × Value))
    (name : String) (hname : name ∈ requiredFields)
    (h : lacksMember unescape kvs name = true) :
    contextValue unescape { kvs := kvs, keysUnescaped := false } name = none := by
  obtain ⟨o, ho, heq⟩ := contextValue_eq_Get unescape kvs name hname
  rw [heq]
  exact Get_of_lacks unescape kvs o ho name h

/-- When the context object does not repeat the name (or repeats it with one value), the
lookup returns the value of the member that bears it. -/
theorem contextValue_of_unique (unescape : String → String)
    (hU : ∀ s : String, '\\' ∉ s.data → unescape s = s)
    (kvs : List (String × Value)) (name : String) (hname : name ∈ requiredFields)
    (x : Value) (hx : ∃ k, (k, x) ∈ kvs ∧ unescape k = name)
    (huniq : ∀ kv ∈ kvs, unescape kv.1 = name → kv.2 = x) :
    contextValue unescape { kvs := kvs, keysUnescaped := false } name = some x := by
  obtain ⟨o, ho, heq⟩ := contextValue_eq_Get unescape kvs name hname
  rw [heq]
  exact Get_of_unique unescape hU kvs o ho name (requiredFields_plain name hname) x hx huniq

/-- A document without a top-level `context` object has no context object for the lookup
to find. -/
theorem GetObject_of_no_context_object (unescape : String → String) (v : Value)
    (h : hasContextObject unescape v = false) :
    v.GetObject unescape ["context"] = none := by
  cases v with
  | object kvs =>
    unfold Value.GetObject
    simp only [Value.Get]
    cases hres : (Object.Get unescape { kvs := kvs, keysUnescaped := false } "context").1 with
    | none => rfl
    | some x =>
      obtain ⟨k, hmem, hk⟩ := Get_mem unescape kvs _ (Or.inl rfl) "context" x hres
      simp only [hasContextObject, List.any_eq_false, Bool.and_eq_true, Bool.or_eq_true,
        beq_iff_eq, not_and, Bool.not_eq_true] at h
      have := h (k, x) hmem hk
      cases x <;> simp_all [Value.isObject]
  | array a =>
    unfold Value.GetObject
    have : Atoi "context" = none := by decide
    simp [Value.Get, this]
  | null => rfl
  | vtrue => rfl
  | vfalse => rfl
  | number r => rfl
  | string t => rfl

/-- The object `GetObject` returns has not been looked into. -/
theorem GetObject_fresh (unescape : String → String) (keys : List String) (v : Value)
    (o : Object) (h : v.GetObject unescape keys = some o) :
    o = { kvs := o.kvs, keysUnescaped := false } := by
  unfold Value.GetObject at h
  split at h
  · injection h with h
    subst h
    rfl
  · cases h

/-- A document whose only member named `context` (or each of them) is the object `kvs`
hands that object to the lookups. -/
theorem GetObject_of_unique (unescape : String → String)
    (hU : ∀ s : String, '\\' ∉ s.data → unescape s = s)
    (top kvs : List (String × Value))
    (hx : ∃ k, (k, Value.object kvs) ∈ top ∧ unescape k = "context")
    (huniq : ∀ kv ∈ top, unescape kv.1 = "context" → kv.2 = .object kvs) :
    (Value.object top).GetObject unescape ["context"]
      = some { kvs := kvs, keysUnescaped := false } := by
  unfold Value.GetObject
  simp only [Value.Get]
  rw [Get_of_unique unescape hU top _ (Or.inl rfl) "context" (by decide) (.object kvs) hx huniq]

/-- When each of the four names is written by a member of the context object, each lookup
returns the first member written with the name. -/
theorem contextValue_of_written (unescape : String → String) (kvs : List (String × Value))
    (hall : ∀ name ∈ requiredFields, (findKey kvs name).isSome = true)
    (name : String) (hname : name ∈ requiredFields) :
    contextValue unescape { kvs := kvs, keysUnescaped := false } name = findKey kvs name := by
  obtain ⟨d, hd⟩ := Option.isSome_iff_exists.mp (hall "domain" (by decide))
  obtain ⟨a, ha⟩ := Option.isSome_iff_exists.mp (hall "action" (by decide))
  obtain ⟨t, ht⟩ := Option.isSome_iff_exists.mp (hall "transaction_id" (by decide))
  obtain ⟨m, hm⟩ := Option.isSome_iff_exists.mp (hall "message_id" (by decide))
  have h1 := Get_of_written unescape kvs "domain" d (by decide) hd
  have h2 := Get_of_written unescape kvs "action" a (by decide) ha
  have h3 := Get_of_written unescape kvs "transaction_id" t (by decide) ht
  have h4 := Get_of_written unescape kvs "message_id" m (by decide) hm
  simp only [requiredFields, List.mem_cons, List.mem_singleton, List.mem_nil_iff,
    or_false] at hname
  rcases hname with rfl | rfl | rfl | rfl
  · show (Object.Get unescape _ "domain").1 = _
    rw [h1, hd]
  · show (Object.Get unescape (Object.Get unescape _ "domain").2 "action").1 = _
    rw [h1, h2, ha]
  · show (Object.Get unescape (Object.Get unescape (Object.Get unescape _ "domain").2
      "action").2 "transaction_id").1 = _
    rw [h1, h2, h3, ht]
  · show (Object.Get unescape (Object.Get unescape (Object.Get unescape
      (Object.Get unescape _ "domain").2 "action").2 "transaction_id").2 "message_id").1 = _
    rw [h1, h2, h3, h4, hm]

theorem contextField_of_written (unescape : String → String) (kvs : List (String × Value))
    (hall : ∀ name ∈ requiredFields, (findKey kvs name).isSome = true)
    (name : String) (hname : name ∈ requiredFields) :
    contextField unescape { kvs := kvs, keysUnescaped := false } name
      = writtenField kvs name := by
  unfold contextField writtenField
  rw [contextValue_of_written unescape kvs hall name hname]

/-- A member written `domain` is returned by the lookup of `domain` even when a member
before it bears the same name written with an escape. -/
theorem Get_prefers_written (unescape : String → String) (first second : Value) :
    (Object.Get unescape
      { kvs := [("d\\u006fmain", first), ("domain", second)], keysUnescaped := false }
      "domain").1 = some second := by
  rw [Get_of_written unescape [("d\\u006fmain", first), ("domain", second)] "domain" second
    (by decide) rfl]

theorem contextValue_domain (unescape : String → String) (ctxObj : Object) :
    contextValue unescape ctxObj "domain" = (ctxObj.Get unescape "domain").1 := rfl

theorem contextValue_action (unescape : String → String) (ctxObj : Object) :
    contextValue unescape ctxObj "action"
      = ((ctxObj.Get unescape "domain").2.Get unescape "action").1 := rfl

theorem contextValue_transaction_id (unescape : String → String) (ctxObj : Object) :
    contextValue unescape ctxObj "transaction_id"
      = (((ctxObj.Get unescape "domain").2.Get unescape "action").2.Get unescape
          "transaction_id").1 := rfl

theorem contextValue_message_id (unescape : String → String) (ctxObj : Object) :
    contextValue unescape ctxObj "message_id"
      = ((((ctxObj.Get unescape "domain").2.Get unescape "action").2.Get unescape
          "transaction_id").2.Get unescape "message_id").1 := rfl

/-! ### The successful path of the pipeline, step by step -/

theorem publishStep_cases {σ : Type} (rt : Runtime σ) (s : OnSearchService σ)
    (domain action transactionID uploadedKey : String) (calls : List PortCall) (w : σ) :
    (∃ out, (s.publishStep rt domain action transactionID uploadedKey calls w).calls
        = calls ++ [.GetBucket out]) ∨
    ∃ bucket value out,
      (s.publishStep rt domain action transactionID uploadedKey calls w).calls
        = calls ++ [.GetBucket (.ret bucket),
            .Publish s.onSearchTopic (bytesOf transactionID) value out] ∧
      (∀ err, out = .ret (.error err) →
        (s.publishStep rt domain action transactionID uploadedKey calls w).res
          = .ret (some (NewCustomError 500 ErrHTTPInternalServer.Code
              "failed to publish on_search pointer" [.str err]))) := by
  unfold OnSearchService.publishStep
  split
  · left; exact ⟨_, rfl⟩
  · simp only
    split
    · left; exact ⟨_, rfl⟩
    · left; exact ⟨_, rfl⟩
    · split
      · right; exact ⟨_, _, _, List.append_assoc _ _ _, by simp⟩
      · right; exact ⟨_, _, _, List.append_assoc _ _ _, by simp⟩
      · right; exact ⟨_, _, _, List.append_assoc _ _ _, by simp⟩

theorem uploadStep_cases {σ : Type} (rt : Runtime σ) (s : OnSearchService σ) (payload : Bytes)
    (domain action transactionID : String) (calls : List PortCall) (w : σ) :
    (∃ out, (∀ k, out ≠ .ret (.ok k)) ∧
      (s.uploadStep rt payload domain action transactionID calls w).calls
        = calls ++ [.Upload
            (objectKey domain action (rt.NowIn (istLocation rt) w) transactionID
              (rt.NewString w).1)
            payload "application/json" out]) ∨
    ∃ uploadedKey w2,
      s.uploadStep rt payload domain action transactionID calls w
        = s.publishStep rt domain action transactionID uploadedKey
            (calls ++ [.Upload
              (objectKey domain action (rt.NowIn (istLocation rt) w) transactionID
                (rt.NewString w).1)
              payload "application/json" (.ret (.ok uploadedKey))]) w2 := by
  unfold OnSearchService.uploadStep
  simp only
  split
  · left; exact ⟨_, by simp, rfl⟩
  · left; exact ⟨_, by simp, rfl⟩
  · right; exact ⟨_, _, rfl⟩

theorem validateStep_cases {σ : Type} (rt : Runtime σ) (s : OnSearchService σ)
    (payload : Bytes) (domain action transactionID : String) (w : σ) :
    (∃ out, (∀ u, out ≠ .ret (.ok u)) ∧
      (s.validateStep rt payload domain action transactionID w).calls
        = [.Validate domain action payload out]) ∨
    ∃ u1 w1,
      s.validateStep rt payload domain action transactionID w
        = s.uploadStep rt payload domain action transactionID
            [.Validate domain action payload (.ret (.ok u1))] w1 := by
  unfold OnSearchService.validateStep
  split
  · left; exact ⟨_, by simp, rfl⟩
  · left; exact ⟨_, by simp, rfl⟩
  · right; exact ⟨_, _, rfl⟩

theorem handleBody_cases {σ : Type} (rt : Runtime σ) (s : OnSearchService σ) (payload : Bytes)
    (w : σ) :
    (s.handleBody rt payload w).calls = [] ∨
    ∃ v ctxObj,
      rt.ParseBytes payload = .ret (.ok v) ∧ v.GetObject rt.Unescape ["context"] = some ctxObj ∧
      s.handleBody rt payload w
        = s.validateStep rt payload (contextField rt.Unescape ctxObj "domain")
            (contextField rt.Unescape ctxObj "action")
            (contextField rt.Unescape ctxObj "transaction_id") w := by
  unfold OnSearchService.handleBody
  split
  · left; rfl
  · split
    · left; rfl
    · left; rfl
    · rename_i x v hP
      split
      · left; rfl
      · rename_i x1 ctxObj hC
        simp only
        split
        · rename_i dv av tv mv hd ha ht hm
          split
          · left; rfl
          · right
            exact ⟨v, ctxObj, hP, hC, by
              simp only [contextField, contextValue_domain, contextValue_action,
                contextValue_transaction_id, hd, ha, ht]⟩
        · left; rfl

/-! ### Rejections before any port is called -/

/-- A payload that parses but whose context envelope is unusable is answered with
`ErrMissingRequiredField` before any port is called. -/
theorem handleBody_unusable_context {σ : Type} (rt : Runtime σ) (s : OnSearchService σ)
    (payload : Bytes) (w : σ) (v : Value) (hne : payload ≠ [])
    (hparse : rt.ParseBytes payload = .ret (.ok v))
    (hbad : v.GetObject rt.Unescape ["context"] = none ∨
      ∃ ctxObj, v.GetObject rt.Unescape ["context"] = some ctxObj ∧
        ∃ name ∈ requiredFields, contextField rt.Unescape ctxObj name = "") :
    s.handleBody rt payload w = ⟨.ret (some ErrMissingRequiredField), [], w⟩ := by
  have hlen : ¬ payload.length = 0 := by
    intro h; exact hne (List.length_eq_zero.mp h)
  unfold OnSearchService.handleBody
  rw [if_neg hlen]
  simp only [hparse]
  rcases hbad with hnone | ⟨ctxObj, hC, name, hname, hfield⟩
  · simp only [hnone]
  · simp only [hC]
    split
    · rename_i dv av tv mv hd ha ht hm
      rw [if_pos]
      simp only [requiredFields, List.mem_cons, List.mem_singleton, List.mem_nil_iff,
        or_false] at hname
      rcases hname with rfl | rfl | rfl | rfl
      · left; simpa only [contextField, contextValue_domain, hd] using hfield
      · right; left; simpa only [contextField, contextValue_action, ha] using hfield
      · right; right; left
        simpa only [contextField, contextValue_transaction_id, ht] using hfield
      · right; right; right
        simpa only [contextField, contextValue_message_id, hm] using hfield
    · rfl

/-- C2, as amended: a non-empty payload that parses, but has no top-level `context` object
(or none the lookup finds), or whose context lacks one of `domain`, `action`,
`transaction_id`, `message_id`, or for which the lookup of one of them on the context
object (the four being looked up in that order) returns nil or the empty string, is
answered with `ErrMissingRequiredField` (400, `REQUEST_2002`); no port is called and the
world is left as it was. -/
theorem missing_context_field_rejected {σ : Type} (rt : Runtime σ) (s : OnSearchService σ)
    (payload : Bytes) (w : σ) (v : Value)
    (hne : payload ≠ [])
    (hparse : rt.ParseBytes payload = .ret (.ok v))
    (hmiss : hasContextObject rt.Unescape v = false ∨
      v.GetObject rt.Unescape ["context"] = none ∨
      ∃ ctxObj, v.GetObject rt.Unescape ["context"] = some ctxObj ∧
        ∃ name ∈ requiredFields,
          lacksMember rt.Unescape ctxObj.kvs name = true ∨
          contextValue rt.Unescape ctxObj name = none ∨
          contextValue rt.Unescape ctxObj name = some (.string "")) :
    (s.HandleOnSearch rt payload w).err = some ErrMissingRequiredField ∧
    ErrMissingRequiredField.HTTPCode = 400 ∧ ErrMissingRequiredField.Code = "REQUEST_2002" ∧
    (s.HandleOnSearch rt payload w).calls = [] ∧
    (s.HandleOnSearch rt payload w).world = w := by
  have key : s.handleBody rt payload w = ⟨.ret (some ErrMissingRequiredField), [], w⟩ := by
    apply handleBody_unusable_context rt s payload w v hne hparse
    rcases hmiss with hno | hnone | ⟨ctxObj, hC, name, hname, hfield⟩
    · left; exact GetObject_of_no_context_object rt.Unescape v hno
    · left; exact hnone
    · right
      refine ⟨ctxObj, hC, name, hname, ?_⟩
      have hval : contextValue rt.Unescape ctxObj name = none ∨
          contextValue rt.Unescape ctxObj name = some (.string "") := by
        rcases hfield with hl | hn | he
        · left
          rw [GetObject_fresh rt.Unescape _ v ctxObj hC]
          exact contextValue_of_lacks rt.Unescape ctxObj.kvs name hname hl
        · left; exact hn
        · right; exact he
      unfold contextField
      rcases hval with h0 | h0
      · rw [h0]
      · rw [h0]
        rfl
  refine ⟨?_, by decide, by decide, ?_, ?_⟩
  · show recoverErr (s.handleBody rt payload w).res = _
    rw [key]; rfl
  · show (s.handleBody rt payload w).calls = _
    rw [key]
  · show (s.handleBody rt payload w).world = _
    rw [key]

/-- The concrete deployment rejects the callback whose `domain` is written with an escape
only and whose first `action`, also written with an escape, is the empty string: the
lookup of `domain` unescapes the keys, and the lookup of `action` then returns that first
member, although a member written `action` follows. -/
theorem missing_context_field_rejected_witness :
    demoPayloadEscapedOnly ≠ [] ∧
    demoRuntimeRepeats.ParseBytes demoPayloadEscapedOnly
      = .ret (.ok (.object [("context", .object demoContextEscapedOnly.kvs)])) ∧
    contextValue demoRuntimeRepeats.Unescape demoContextEscapedOnly "action"
      = some (.string "") ∧
    (demoService.HandleOnSearch demoRuntimeRepeats demoPayloadEscapedOnly demoWorld).err
        = some ErrMissingRequiredField ∧
    ErrMissingRequiredField.HTTPCode = 400 ∧ ErrMissingRequiredField.Code = "REQUEST_2002" ∧
    (demoService.HandleOnSearch demoRuntimeRepeats demoPayloadEscapedOnly demoWorld).calls
        = [] ∧
    (demoService.HandleOnSearch demoRuntimeRepeats demoPayloadEscapedOnly demoWorld).world
        = demoWorld :=
  ⟨by decide, rfl, rfl,
   missing_context_field_rejected demoRuntimeRepeats demoService demoPayloadEscapedOnly
    demoWorld (.object [("context", .object demoContextEscapedOnly.kvs)]) (by decide) rfl
    (Or.inr (Or.inr ⟨demoContextEscapedOnly, rfl, "action", by decide, Or.inr (Or.inr rfl)⟩))⟩

/-- C2 as stated fails on a context that names `domain` twice.  In the first callback the
second `domain` is the empty string; in the second callback the first `domain`, its name
written with an escape, is the empty string.  Both contexts have a member `domain` equal
to the empty string, yet both runs return nil after calling the validator, storage and the
publisher: the lookup returns the other member. -/
theorem missing_context_field_repeated_name :
    (demoPayloadRepeatedEmpty ≠ [] ∧
      demoRuntimeRepeats.ParseBytes demoPayloadRepeatedEmpty
        = .ret (.ok (.object [("context", .object demoContextRepeatedEmpty.kvs)])) ∧
      ("domain", Value.string "") ∈ demoContextRepeatedEmpty.kvs ∧
      (demoService.HandleOnSearch demoRuntimeRepeats demoPayloadRepeatedEmpty demoWorld).err
        = none ∧
      (demoService.HandleOnSearch demoRuntimeRepeats demoPayloadRepeatedEmpty demoWorld).err
        ≠ some ErrMissingRequiredField ∧
      (demoService.HandleOnSearch demoRuntimeRepeats demoPayloadRepeatedEmpty
          demoWorld).calls.map PortCall.kind
        = [PortKind.Validate, PortKind.Upload, PortKind.GetBucket, PortKind.Publish]) ∧
    (demoPayloadEscapedEmpty ≠ [] ∧
      demoRuntimeRepeats.ParseBytes demoPayloadEscapedEmpty
        = .ret (.ok (.object [("context", .object demoContextEscapedEmpty.kvs)])) ∧
      ("d\\u006fmain", Value.string "") ∈ demoContextEscapedEmpty.kvs ∧
      demoRuntimeRepeats.Unescape "d\\u006fmain" = "domain" ∧
      (demoService.HandleOnSearch demoRuntimeRepeats demoPayloadEscapedEmpty demoWorld).err
        = none ∧
      (demoService.HandleOnSearch demoRuntimeRepeats demoPayloadEscapedEmpty demoWorld).err
        ≠ some ErrMissingRequiredField ∧
      (demoService.HandleOnSearch demoRuntimeRepeats demoPayloadEscapedEmpty
          demoWorld).calls.map PortCall.kind
        = [PortKind.Validate, PortKind.Upload, PortKind.GetBucket, PortKind.Publish]) :=
  ⟨⟨by decide, rfl, List.mem_cons_of_mem _ (List.mem_cons_self _ _), by decide, by decide,
      by decide⟩,
   ⟨by decide, rfl, List.mem_cons_self _ _, rfl, by decide, by decide, by decide⟩⟩

/-- C10: the empty payload is answered with `ErrInvalidRequestBody` (400, `REQUEST_2001`)
whatever the parser and the ports would do: nothing is parsed, no port is called and the
world is left as it was. -/
theorem empty_payload_rejected {σ : Type} (rt : Runtime σ) (s : OnSearchService σ) (w : σ) :
    (s.HandleOnSearch rt [] w).err = some ErrInvalidRequestBody ∧
    ErrInvalidRequestBody.HTTPCode = 400 ∧ ErrInvalidRequestBody.Code = "REQUEST_2001" ∧
    (s.HandleOnSearch rt [] w).calls = [] ∧ (s.HandleOnSearch rt [] w).world = w := by
  refine ⟨rfl, by decide, by decide, rfl, rfl⟩

/-! ### The port calls of a run -/

/-- C4: fail-stop.  In every run the Validate, Upload and Publish calls made form a prefix of
[Validate, Upload, Publish] (with the read of the bucket name, a prefix of [Validate, Upload,
GetBucket, Publish]), and every call but the last one made returned without fault and
without error: Upload is only called after a Validate that succeeded, Publish only after an
Upload that succeeded, and nothing is called after a call that failed. -/
theorem fail_stop_trace {σ : Type} (rt : Runtime σ) (s : OnSearchService σ) (payload : Bytes)
    (w : σ) :
    (operations (s.HandleOnSearch rt payload w).calls).map PortCall.kind
        <+: [PortKind.Validate, PortKind.Upload, PortKind.Publish] ∧
    (∀ c ∈ (operations (s.HandleOnSearch rt payload w).calls).dropLast, c.succeeded = true) ∧
    (s.HandleOnSearch rt payload w).calls.map PortCall.kind
        <+: [PortKind.Validate, PortKind.Upload, PortKind.GetBucket, PortKind.Publish] ∧
    ∀ c ∈ (s.HandleOnSearch rt payload w).calls.dropLast, c.succeeded = true := by
  unfold OnSearchService.HandleOnSearch OnSearchService.handleBody OnSearchService.validateStep
    OnSearchService.uploadStep OnSearchService.publishStep
  simp only
  repeat' split
  all_goals simp_all [PortCall.kind, PortCall.succeeded, List.IsPrefix, operations]

/-- C5: when a Publish call returns an error, the run returns the 500 error
"failed to publish on_search pointer" carrying that error, and its whole trace is Validate,
Upload of the payload, GetBucket, and that one Publish: a single upload, and no call of any
port after the failed publish. -/
theorem publish_failure_keeps_upload {σ : Type} (rt : Runtime σ) (s : OnSearchService σ)
    (payload : Bytes) (w : σ) (topic : String) (key value : Bytes) (err : String)
    (h : PortCall.Publish topic key value (.ret (.error err))
      ∈ (s.HandleOnSearch rt payload w).calls) :
    (s.HandleOnSearch rt payload w).err
      = some (NewCustomError 500 "HTTP_500" "failed to publish on_search pointer" [.str err]) ∧
    (NewCustomError 500 "HTTP_500" "failed to publish on_search pointer"
      [.str err]).HTTPCode = 500 ∧
    (operations (s.HandleOnSearch rt payload w).calls).map PortCall.kind
      = [PortKind.Validate, PortKind.Upload, PortKind.Publish] ∧
    ∃ domain action objectName uploadedKey u1 bucket,
      (s.HandleOnSearch rt payload w).calls =
        [.Validate domain action payload (.ret (.ok u1)),
         .Upload objectName payload "application/json" (.ret (.ok uploadedKey)),
         .GetBucket (.ret bucket),
         .Publish topic key value (.ret (.error err))] := by
  have hc : PortCall.Publish topic key value (.ret (.error err))
      ∈ (s.handleBody rt payload w).calls := h
  show recoverErr (s.handleBody rt payload w).res = _ ∧ _ ∧
    (operations (s.handleBody rt payload w).calls).map PortCall.kind = _ ∧
    ∃ domain action objectName uploadedKey u1 bucket, (s.handleBody rt payload w).calls = _
  rcases handleBody_cases rt s payload w with h0 | ⟨v, ctxObj, -, -, hB⟩
  · rw [h0] at hc; simp at hc
  rw [hB] at hc ⊢
  rcases validateStep_cases rt s payload (contextField rt.Unescape ctxObj "domain")
      (contextField rt.Unescape ctxObj "action")
      (contextField rt.Unescape ctxObj "transaction_id") w
    with ⟨out, -, h1⟩ | ⟨u1, w1, hV⟩
  · rw [h1] at hc; simp at hc
  rw [hV] at hc ⊢
  rcases uploadStep_cases rt s payload (contextField rt.Unescape ctxObj "domain")
      (contextField rt.Unescape ctxObj "action")
      (contextField rt.Unescape ctxObj "transaction_id") _ w1
    with ⟨out, -, h2⟩ | ⟨uk, w2, hU⟩
  · rw [h2] at hc; simp at hc
  rw [hU] at hc ⊢
  rcases publishStep_cases rt s (contextField rt.Unescape ctxObj "domain")
      (contextField rt.Unescape ctxObj "action")
      (contextField rt.Unescape ctxObj "transaction_id") uk _ w2
    with ⟨out, h3⟩ | ⟨bucket, value', out, h3, hres⟩
  · rw [h3] at hc; simp at hc
  rw [h3] at hc
  simp at hc
  obtain ⟨rfl, rfl, rfl, rfl⟩ := hc
  refine ⟨?_, rfl, ?_, ?_⟩
  · rw [hres err rfl]; rfl
  · rw [h3]; rfl
  · exact ⟨_, _, _, _, _, _, h3⟩

/-- The run of the concrete deployment with the broker unreachable. -/
theorem publish_failure_keeps_upload_witness :
    PortCall.Publish "ondc.on_search.pointer" (bytesOf "t1") demoPointerBytes
        (.ret (.error "failed to publish kafka message: context deadline exceeded"))
      ∈ (downService.HandleOnSearch demoRuntime demoPayload demoWorld).calls ∧
    (downService.HandleOnSearch demoRuntime demoPayload demoWorld).err
      = some (NewCustomError 500 "HTTP_500" "failed to publish on_search pointer"
          [.str "failed to publish kafka message: context deadline exceeded"]) ∧
    (NewCustomError 500 "HTTP_500" "failed to publish on_search pointer"
      [.str "failed to publish kafka message: context deadline exceeded"]).HTTPCode = 500 ∧
    (operations (downService.HandleOnSearch demoRuntime demoPayload demoWorld).calls).map
        PortCall.kind
      = [PortKind.Validate, PortKind.Upload, PortKind.Publish] ∧
    ∃ domain action objectName uploadedKey u1 bucket,
      (downService.HandleOnSearch demoRuntime demoPayload demoWorld).calls =
        [.Validate domain action demoPayload (.ret (.ok u1)),
         .Upload objectName demoPayload "application/json" (.ret (.ok uploadedKey)),
         .GetBucket (.ret bucket),
         .Publish "ondc.on_search.pointer" (bytesOf "t1") demoPointerBytes
           (.ret (.error "failed to publish kafka message: context deadline exceeded"))] :=
  ⟨List.mem_cons_of_mem _ (List.mem_cons_of_mem _ (List.mem_cons_of_mem _
      (List.mem_cons_self _ _))),
   publish_failure_keeps_upload demoRuntime downService demoPayload demoWorld
     "ondc.on_search.pointer" (bytesOf "t1") demoPointerBytes
     "failed to publish kafka message: context deadline exceeded"
     (List.mem_cons_of_mem _ (List.mem_cons_of_mem _ (List.mem_cons_of_mem _
       (List.mem_cons_self _ _))))⟩

/-! ### The object key -/

theorem replaceChars_colon (cs : List Char) :
    replaceChars [':'] ['_'] 0 cs = cs.map fun c => if c = ':' then '_' else c := by
  induction cs with
  | nil => simp [replaceChars]
  | cons c cs ih =>
    by_cases hc : c = ':'
    · subst hc
      simp [replaceChars, ih]
    · simp [replaceChars, ih, hc]
      intro h; exact absurd h.symm hc

theorem ReplaceAll_colon (domain : String) :
    ReplaceAll domain ":" "_" = specDomainSegment domain := by
  unfold ReplaceAll specDomainSegment
  exact congrArg String.mk (replaceChars_colon domain.data)

theorem specDomainSegment_no_colon (domain : String) :
    ':' ∉ (specDomainSegment domain).data := by
  unfold specDomainSegment
  simp only [List.mem_map, not_exists, not_and]
  intro c _
  by_cases hc : c = ':'
  · simp [hc]
  · simp [hc]

theorem appendInt_eq_zeroPad (x width : Nat) : String.mk (appendInt x width) = zeroPad width x := by
  rfl

theorem Format_stamp (t : CivilTime) : t.Format "2006-01-02_15-04-05" = specStamp t := by
  apply String.ext
  simp only [CivilTime.Format, specStamp, String.data_append, ← appendInt_eq_zeroPad]
  simp [formatLayout]

theorem objectKey_eq_spec (domain action : String) (t : CivilTime) (transactionID uuid : String) :
    objectKey domain action t transactionID uuid
      = specObjectKey domain action t transactionID uuid := by
  unfold objectKey specObjectKey
  simp only [ReplaceAll_colon, Format_stamp]
  apply String.ext
  simp [Sprintf, fmtExpand]

theorem specObjectKey_data (domain action : String) (t : CivilTime) (transactionID uuid : String) :
    (specObjectKey domain action t transactionID uuid).data
      = ("ondc/" ++ specDomainSegment domain ++ "/" ++ action ++ "/" ++ specStamp t ++ "/" ++
          transactionID ++ "_").data ++ (uuid.data ++ ".json".data) := by
  simp [specObjectKey, String.data_append]

theorem isCanonicalUUID_length {u : String} (h : isCanonicalUUID u = true) :
    u.data.length = 36 := by
  unfold isCanonicalUUID at h
  simp only [Bool.and_eq_true, beq_iff_eq] at h
  exact h.1

/-- C6: the object name of every Upload call of a run is `ondc/D/A/T/X_U.json`, where `D`
is the extracted domain with its colons replaced by underscores, `A` the extracted action,
`T` the clock reading stamped as `YYYY-MM-DD_HH-MM-SS`, `X` the extracted transaction id and
`U` the uuid drawn before the upload.  Its domain segment holds no colon, and for domain
`ONDC:RET18` and action `search` it begins with `ondc/ONDC_RET18/search/`.  The extracted
values are the strings the lookups of `HandleOnSearch` on the context object return: when
each of the four names is written by a member, the text of the first member so written. -/
theorem upload_key_layout {σ : Type} (rt : Runtime σ) (s : OnSearchService σ) (payload : Bytes)
    (w : σ) (objectName : String) (data : Bytes) (contentType : String)
    (out : Run (Except String String))
    (h : PortCall.Upload objectName data contentType out
      ∈ (s.HandleOnSearch rt payload w).calls) :
    ∃ v ctxObj w1,
      rt.ParseBytes payload = .ret (.ok v) ∧ v.GetObject rt.Unescape ["context"] = some ctxObj ∧
      objectName
        = specObjectKey (contextField rt.Unescape ctxObj "domain")
            (contextField rt.Unescape ctxObj "action")
            (rt.NowIn (istLocation rt) w1) (contextField rt.Unescape ctxObj "transaction_id")
            (rt.NewString w1).1 ∧
      ':' ∉ (specDomainSegment (contextField rt.Unescape ctxObj "domain")).data ∧
      (contextField rt.Unescape ctxObj "domain" = "ONDC:RET18" →
        contextField rt.Unescape ctxObj "action" = "search" →
        ∃ rest, objectName = "ondc/ONDC_RET18/search/" ++ rest) ∧
      ((∀ name ∈ requiredFields, (findKey ctxObj.kvs name).isSome = true) →
        ∀ name ∈ requiredFields,
          contextField rt.Unescape ctxObj name = writtenField ctxObj.kvs name) := by
  have hc : PortCall.Upload objectName data contentType out
      ∈ (s.handleBody rt payload w).calls := h
  rcases handleBody_cases rt s payload w with h0 | ⟨v, ctxObj, hP, hC, hB⟩
  · rw [h0] at hc; simp at hc
  rw [hB] at hc
  rcases validateStep_cases rt s payload (contextField rt.Unescape ctxObj "domain")
      (contextField rt.Unescape ctxObj "action")
      (contextField rt.Unescape ctxObj "transaction_id") w
    with ⟨out1, -, h1⟩ | ⟨u1, w1, hV⟩
  · rw [h1] at hc; simp at hc
  rw [hV] at hc
  have hname : objectName
      = objectKey (contextField rt.Unescape ctxObj "domain")
          (contextField rt.Unescape ctxObj "action")
          (rt.NowIn (istLocation rt) w1) (contextField rt.Unescape ctxObj "transaction_id")
          (rt.NewString w1).1 := by
    rcases uploadStep_cases rt s payload (contextField rt.Unescape ctxObj "domain")
        (contextField rt.Unescape ctxObj "action")
        (contextField rt.Unescape ctxObj "transaction_id") _ w1
      with ⟨out2, -, h2⟩ | ⟨uk, w2, hU⟩
    · rw [h2] at hc; simp at hc; exact hc.1
    · rw [hU] at hc
      rcases publishStep_cases rt s (contextField rt.Unescape ctxObj "domain")
          (contextField rt.Unescape ctxObj "action")
          (contextField rt.Unescape ctxObj "transaction_id") uk _ w2
        with ⟨out3, h3⟩ | ⟨bucket, value, out3, h3, -⟩
      · rw [h3] at hc; simp at hc; exact hc.1
      · rw [h3] at hc; simp at hc; exact hc.1
  rw [objectKey_eq_spec] at hname
  refine ⟨v, ctxObj, w1, hP, hC, hname, specDomainSegment_no_colon _, ?_, ?_⟩
  · intro hd ha
    rw [hname, hd, ha]
    refine ⟨specStamp (rt.NowIn (istLocation rt) w1) ++ "/" ++
      contextField rt.Unescape ctxObj "transaction_id" ++ "_" ++ (rt.NewString w1).1 ++
      ".json", ?_⟩
    apply String.ext
    simp [specObjectKey, specDomainSegment]
  · intro hall name hn
    rw [GetObject_fresh rt.Unescape _ v ctxObj hC]
    exact contextField_of_written rt.Unescape ctxObj.kvs hall name hn

/-- C7: two object keys built with distinct uuids of the canonical 36-character form are
distinct, whatever the domains, actions, clock readings and transaction ids, equal or
not. -/
theorem object_keys_distinct (domainA actionA : String) (tA : CivilTime) (transactionIDA : String)
    (domainB actionB : String) (tB : CivilTime) (transactionIDB : String) (uuidA uuidB : String)
    (hA : isCanonicalUUID uuidA = true) (hB : isCanonicalUUID uuidB = true)
    (hne : uuidA ≠ uuidB) :
    objectKey domainA actionA tA transactionIDA uuidA
      ≠ objectKey domainB actionB tB transactionIDB uuidB := by
  intro heq
  rw [objectKey_eq_spec, objectKey_eq_spec] at heq
  have hd := congrArg String.data heq
  rw [specObjectKey_data, specObjectKey_data] at hd
  have hlen : (uuidA.data ++ ".json".data).length = (uuidB.data ++ ".json".data).length := by
    simp [isCanonicalUUID_length hA, isCanonicalUUID_length hB]
  have htail := (List.append_inj' hd hlen).2
  have hu : uuidA.data = uuidB.data := List.append_cancel_right htail
  exact hne (String.ext hu)

/-! ### The stored object and the published pointer -/

/-- The object name the concrete deployment uploads under, for the callback that names
`domain` twice: the key is built from the member written `domain`, which the lookup
returns, not from the one before it whose name is written with an escape. -/
theorem upload_key_layout_witness :
    PortCall.Upload demoObjectKey demoPayloadEscapedTwin "application/json"
        (.ret (.ok demoObjectKey))
      ∈ (demoService.HandleOnSearch demoRuntimeRepeats demoPayloadEscapedTwin demoWorld).calls ∧
    demoRuntimeRepeats.ParseBytes demoPayloadEscapedTwin
      = .ret (.ok (.object [("context", .object demoContextEscapedTwin.kvs)])) ∧
    contextField demoRuntimeRepeats.Unescape demoContextEscapedTwin "domain" = "ONDC:RET18" ∧
    ∃ v ctxObj w1,
      demoRuntimeRepeats.ParseBytes demoPayloadEscapedTwin = .ret (.ok v) ∧
      v.GetObject demoRuntimeRepeats.Unescape ["context"] = some ctxObj ∧
      demoObjectKey
        = specObjectKey (contextField demoRuntimeRepeats.Unescape ctxObj "domain")
            (contextField demoRuntimeRepeats.Unescape ctxObj "action")
            (demoRuntimeRepeats.NowIn (istLocation demoRuntimeRepeats) w1)
            (contextField demoRuntimeRepeats.Unescape ctxObj "transaction_id")
            (demoRuntimeRepeats.NewString w1).1 ∧
      ':' ∉ (specDomainSegment
        (contextField demoRuntimeRepeats.Unescape ctxObj "domain")).data ∧
      (contextField demoRuntimeRepeats.Unescape ctxObj "domain" = "ONDC:RET18" →
        contextField demoRuntimeRepeats.Unescape ctxObj "action" = "search" →
        ∃ rest, demoObjectKey = "ondc/ONDC_RET18/search/" ++ rest) ∧
      ((∀ name ∈ requiredFields, (findKey ctxObj.kvs name).isSome = true) →
        ∀ name ∈ requiredFields,
          contextField demoRuntimeRepeats.Unescape ctxObj name
            = writtenField ctxObj.kvs name) :=
  ⟨List.mem_cons_of_mem _ (List.mem_cons_self _ _), rfl, rfl,
   upload_key_layout demoRuntimeRepeats demoService demoPayloadEscapedTwin demoWorld
     demoObjectKey demoPayloadEscapedTwin "application/json" (.ret (.ok demoObjectKey))
     (List.mem_cons_of_mem _ (List.mem_cons_self _ _))⟩

/-- Two submissions in the same second with different uuids. -/
theorem object_keys_distinct_witness :
    isCanonicalUUID "123e4567-e89b-42d3-a456-426614174000" = true ∧
    isCanonicalUUID "9b2d1c3e-0f4a-4b6c-8d7e-5f6a7b8c9d0e" = true ∧
    "123e4567-e89b-42d3-a456-426614174000" ≠ "9b2d1c3e-0f4a-4b6c-8d7e-5f6a7b8c9d0e" ∧
    objectKey "ONDC:RET18" "search"
        { Year := 2024, Month := 3, Day := 9, Hour := 14, Minute := 5, Second := 7 } "t1"
        "123e4567-e89b-42d3-a456-426614174000"
      ≠ objectKey "ONDC:RET18" "search"
        { Year := 2024, Month := 3, Day := 9, Hour := 14, Minute := 5, Second := 7 } "t1"
        "9b2d1c3e-0f4a-4b6c-8d7e-5f6a7b8c9d0e" :=
  ⟨by decide, by decide, by decide,
   object_keys_distinct "ONDC:RET18" "search" _ "t1" "ONDC:RET18" "search" _ "t1" _ _
     (by decide) (by decide) (by decide)⟩

theorem Sprintf_v (r : String) : Sprintf "%v" [r] = r := by
  apply String.ext
  simp [Sprintf, fmtExpand]

/-- C11: every error `HandleOnSearch` returns was built at one of eight stages.  At the
empty-payload check, the parse, the context extraction and the schema validation (whatever
the validator's error, the unknown schema included) the status is 400 and the code is one
of `REQUEST_2001`, `REQUEST_2002`; at the upload, the serialization, the publish and the
recovery of a fault the status is 500 and the code is one of `DB_2002`, `HTTP_500`.  No
client-fault code is a server-fault code. -/
theorem fault_classification {σ : Type} (rt : Runtime σ) (s : OnSearchService σ)
    (payload : Bytes) (w : σ) (e : CustomError)
    (h : (s.HandleOnSearch rt payload w).err = some e) :
    (∃ stage, FailedAt rt payload (s.HandleOnSearch rt payload w).calls e stage ∧
      (stage.clientFault = true → e.HTTPCode = 400 ∧ e.Code ∈ clientCodes) ∧
      (stage.clientFault = false → e.HTTPCode = 500 ∧ e.Code ∈ serverCodes)) ∧
    (∀ code ∈ clientCodes, code ∉ serverCodes) := by
  refine ⟨?_, by decide⟩
  have key : ¬ payload.length = 0 → payload ≠ [] := fun h0 hp => h0 (by simp [hp])
  revert h
  unfold OnSearchService.HandleOnSearch OnSearchService.handleBody OnSearchService.validateStep
    OnSearchService.uploadStep OnSearchService.publishStep
  simp only
  repeat' split
  all_goals intro h
  all_goals simp only [recoverErr, Option.some.injEq, reduceCtorEq, Sprintf_v] at h
  all_goals try subst h
  all_goals first
    | exact ⟨.Received, ⟨List.length_eq_zero.mp (by assumption), rfl⟩, (by decide),
        (by decide)⟩
    | exact ⟨.Parsed, ⟨key (by assumption), _, (by assumption), rfl⟩,
        fun _ => ⟨rfl, List.mem_cons_self _ _⟩, (fun hc => absurd hc (by decide))⟩
    | exact ⟨.ContextExtraction, ⟨key (by assumption), ⟨_, (by assumption)⟩, rfl, rfl⟩,
        (by decide), (by decide)⟩
    | exact ⟨.Validated, ⟨_, _, _, rfl, rfl⟩,
        fun _ => ⟨rfl, List.mem_cons_self _ _⟩, (fun hc => absurd hc (by decide))⟩
    | exact ⟨.Stored, ⟨_, _, rfl, rfl⟩,
        (fun hc => absurd hc (by decide)), fun _ => ⟨rfl, List.mem_cons_self _ _⟩⟩
    | exact ⟨.Serialized, ⟨_, _, _, rfl, (by assumption), rfl⟩,
        (fun hc => absurd hc (by decide)),
        fun _ => ⟨rfl, List.mem_cons_of_mem _ (List.mem_cons_self _ _)⟩⟩
    | exact ⟨.Published, ⟨_, _, _, _, rfl, rfl⟩,
        (fun hc => absurd hc (by decide)),
        fun _ => ⟨rfl, List.mem_cons_of_mem _ (List.mem_cons_self _ _)⟩⟩
    | exact ⟨.Recovered, ⟨_, Or.inl ⟨key (by assumption), (by assumption)⟩, rfl⟩,
        (fun hc => absurd hc (by decide)),
        fun _ => ⟨rfl, List.mem_cons_of_mem _ (List.mem_cons_self _ _)⟩⟩
    | exact ⟨.Recovered, ⟨_, Or.inr (Or.inr ⟨_, (by assumption)⟩), rfl⟩,
        (fun hc => absurd hc (by decide)),
        fun _ => ⟨rfl, List.mem_cons_of_mem _ (List.mem_cons_self _ _)⟩⟩
    | exact ⟨.Recovered, ⟨_, Or.inr (Or.inl ⟨_, rfl, rfl⟩), rfl⟩,
        (fun hc => absurd hc (by decide)),
        fun _ => ⟨rfl, List.mem_cons_of_mem _ (List.mem_cons_self _ _)⟩⟩

/-- C12: when the parse, or a call on a port, ends in a runtime fault of value `r`, the
fault does not leave `HandleOnSearch`: the run returns the error with status 500, code
`HTTP_500`, message "internal server error" and details `r`.  After a faulting parse no
port is called; a faulting port call is the last call of the run, and the calls before it
had all succeeded. -/
theorem recovery_boundary {σ : Type} (rt : Runtime σ) (s : OnSearchService σ)
    (payload : Bytes) (w : σ) (r : String)
    (h : (payload ≠ [] ∧ rt.ParseBytes payload = .panic r) ∨
      ∃ c ∈ (s.HandleOnSearch rt payload w).calls, c.fault = some r) :
    (s.HandleOnSearch rt payload w).err
      = some { Message := "internal server error", Code := "HTTP_500", HTTPCode := 500,
               Details := .str r } ∧
    (rt.ParseBytes payload = .panic r → (s.HandleOnSearch rt payload w).calls = []) ∧
    ∀ c ∈ (s.HandleOnSearch rt payload w).calls, c.fault = some r →
      (s.HandleOnSearch rt payload w).calls.getLast? = some c ∧
        ∀ d ∈ (s.HandleOnSearch rt payload w).calls.dropLast, d.succeeded = true := by
  revert h
  unfold OnSearchService.HandleOnSearch OnSearchService.handleBody OnSearchService.validateStep
    OnSearchService.uploadStep OnSearchService.publishStep
  simp only
  repeat' split
  all_goals simp_all [PortCall.fault, PortCall.succeeded, recoverErr, NewCustomError, Sprintf,
    fmtExpand, ErrHTTPInternalServer]

/-! ### Envelope members of the wrong type -/

theorem contextField_of_not_string (unescape : String → String) (ctxObj : Object)
    (name : String) (x : Value)
    (hx : contextValue unescape ctxObj name = some x) (hs : x.isString = false) :
    contextField unescape ctxObj name = "" := by
  unfold contextField
  rw [hx]
  cases x <;> simp_all [Value.isString, Value.GetStringBytes, goString]

theorem GetObject_of_not_object (unescape : String → String) (kvs : List (String × Value))
    (x : Value)
    (hx : (Object.Get unescape { kvs := kvs, keysUnescaped := false } "context").1 = some x)
    (ho : x.isObject = false) :
    (Value.object kvs).GetObject unescape ["context"] = none := by
  unfold Value.GetObject
  simp only [Value.Get, hx]
  cases x <;> simp_all [Value.isObject]

/-- C15, as amended: a non-empty payload that parses to an object for whose `context`
member the lookup returns a value that is not an object, or for which the lookup of one of
`domain`, `action`, `transaction_id`, `message_id` on the context object (made in that
order) returns a value that is not a string (number, boolean, null, array, object), is
answered with `ErrMissingRequiredField`; no port is called and the world is left as it
was. -/
theorem type_mismatch_counts_as_missing {σ : Type} (rt : Runtime σ) (s : OnSearchService σ)
    (payload : Bytes) (w : σ) (v : Value) (hne : payload ≠ [])
    (hparse : rt.ParseBytes payload = .ret (.ok v))
    (hbad : (∃ kvs x, v = .object kvs ∧
        (Object.Get rt.Unescape { kvs := kvs, keysUnescaped := false } "context").1 = some x ∧
        x.isObject = false) ∨
      ∃ ctxObj, v.GetObject rt.Unescape ["context"] = some ctxObj ∧
        ∃ name ∈ requiredFields, ∃ x,
          contextValue rt.Unescape ctxObj name = some x ∧ x.isString = false) :
    (s.HandleOnSearch rt payload w).err = some ErrMissingRequiredField ∧
    (s.HandleOnSearch rt payload w).calls = [] ∧
    (s.HandleOnSearch rt payload w).world = w := by
  have key : s.handleBody rt payload w = ⟨.ret (some ErrMissingRequiredField), [], w⟩ := by
    apply handleBody_unusable_context rt s payload w v hne hparse
    rcases hbad with ⟨kvs, x, rfl, hx, ho⟩ | ⟨ctxObj, hC, name, hname, x, hx, hs⟩
    · left; exact GetObject_of_not_object rt.Unescape kvs x hx ho
    · right
      exact ⟨ctxObj, hC, name, hname,
        contextField_of_not_string rt.Unescape ctxObj name x hx hs⟩
  refine ⟨?_, ?_, ?_⟩
  · show recoverErr (s.handleBody rt payload w).res = _
    rw [key]; rfl
  · show (s.handleBody rt payload w).calls = _
    rw [key]
  · show (s.handleBody rt payload w).world = _
    rw [key]

/-- C15 as stated fails on a document that names a member twice.  In the first callback
the second `domain` is a number; in the second callback the first `domain`, its name written
with an escape, is a number; in the third callback the second `context` is a number.  Each
document has a `domain`, or a `context`, of the wrong type, yet each run returns nil after
calling the validator, storage and the publisher: the lookup returns the other member. -/
theorem type_mismatch_repeated_name :
    (demoRuntimeRepeats.ParseBytes demoPayloadRepeatedNumber
        = .ret (.ok (.object [("context", .object demoContextRepeatedNumber.kvs)])) ∧
      ("domain", Value.number "18") ∈ demoContextRepeatedNumber.kvs ∧
      (Value.number "18").isString = false ∧
      (demoService.HandleOnSearch demoRuntimeRepeats demoPayloadRepeatedNumber demoWorld).err
        = none ∧
      (demoService.HandleOnSearch demoRuntimeRepeats demoPayloadRepeatedNumber demoWorld).err
        ≠ some ErrMissingRequiredField ∧
      (demoService.HandleOnSearch demoRuntimeRepeats demoPayloadRepeatedNumber
          demoWorld).calls.map PortCall.kind
        = [PortKind.Validate, PortKind.Upload, PortKind.GetBucket, PortKind.Publish]) ∧
    (demoRuntimeRepeats.ParseBytes demoPayloadEscapedNumber
        = .ret (.ok (.object [("context", .object demoContextEscapedNumber.kvs)])) ∧
      ("d\\u006fmain", Value.number "18") ∈ demoContextEscapedNumber.kvs ∧
      demoRuntimeRepeats.Unescape "d\\u006fmain" = "domain" ∧
      (Value.number "18").isString = false ∧
      (demoService.HandleOnSearch demoRuntimeRepeats demoPayloadEscapedNumber demoWorld).err
        = none ∧
      (demoService.HandleOnSearch demoRuntimeRepeats demoPayloadEscapedNumber demoWorld).err
        ≠ some ErrMissingRequiredField ∧
      (demoService.HandleOnSearch demoRuntimeRepeats demoPayloadEscapedNumber
          demoWorld).calls.map PortCall.kind
        = [PortKind.Validate, PortKind.Upload, PortKind.GetBucket, PortKind.Publish]) ∧
    (demoRuntimeRepeats.ParseBytes demoPayloadRepeatedContext
        = .ret (.ok demoValueRepeatedContext) ∧
      (∃ members, demoValueRepeatedContext = .object members ∧
        ("context", Value.number "18") ∈ members) ∧
      (Value.number "18").isObject = false ∧
      (demoService.HandleOnSearch demoRuntimeRepeats demoPayloadRepeatedContext demoWorld).err
        = none ∧
      (demoService.HandleOnSearch demoRuntimeRepeats demoPayloadRepeatedContext demoWorld).err
        ≠ some ErrMissingRequiredField ∧
      (demoService.HandleOnSearch demoRuntimeRepeats demoPayloadRepeatedContext
          demoWorld).calls.map PortCall.kind
        = [PortKind.Validate, PortKind.Upload, PortKind.GetBucket, PortKind.Publish]) :=
  ⟨⟨rfl, List.mem_cons_of_mem _ (List.mem_cons_self _ _), rfl, by decide, by decide,
      by decide⟩,
   ⟨rfl, List.mem_cons_self _ _, rfl, rfl, by decide, by decide, by decide⟩,
   ⟨rfl, ⟨_, rfl, List.mem_cons_of_mem _ (List.mem_cons_self _ _)⟩, rfl, by decide, by decide,
      by decide⟩⟩

/-- The concrete deployment classifies the callback without `domain` as a client fault. -/
theorem fault_classification_witness :
    (demoService.HandleOnSearch demoRuntime demoPayloadNoDomain demoWorld).err
        = some ErrMissingRequiredField ∧
    (∃ stage, FailedAt demoRuntime demoPayloadNoDomain
        (demoService.HandleOnSearch demoRuntime demoPayloadNoDomain demoWorld).calls
        ErrMissingRequiredField stage ∧
      (stage.clientFault = true →
        ErrMissingRequiredField.HTTPCode = 400 ∧ ErrMissingRequiredField.Code ∈ clientCodes) ∧
      (stage.clientFault = false →
        ErrMissingRequiredField.HTTPCode = 500 ∧
          ErrMissingRequiredField.Code ∈ serverCodes)) ∧
    (∀ code ∈ clientCodes, code ∉ serverCodes) :=
  ⟨by decide,
   fault_classification demoRuntime demoService demoPayloadNoDomain demoWorld
     ErrMissingRequiredField (by decide)⟩

/-- The concrete deployment with a validator that faults. -/
theorem recovery_boundary_witness :
    ((demoPayload ≠ [] ∧ demoRuntime.ParseBytes demoPayload
        = .panic "runtime error: invalid memory address or nil pointer dereference") ∨
      ∃ c ∈ (faultyService.HandleOnSearch demoRuntime demoPayload demoWorld).calls,
        c.fault = some "runtime error: invalid memory address or nil pointer dereference") ∧
    (faultyService.HandleOnSearch demoRuntime demoPayload demoWorld).err
      = some { Message := "internal server error", Code := "HTTP_500", HTTPCode := 500,
               Details := .str
                 "runtime error: invalid memory address or nil pointer dereference" } ∧
    (demoRuntime.ParseBytes demoPayload
        = .panic "runtime error: invalid memory address or nil pointer dereference" →
      (faultyService.HandleOnSearch demoRuntime demoPayload demoWorld).calls = []) ∧
    ∀ c ∈ (faultyService.HandleOnSearch demoRuntime demoPayload demoWorld).calls,
      c.fault = some "runtime error: invalid memory address or nil pointer dereference" →
      (faultyService.HandleOnSearch demoRuntime demoPayload demoWorld).calls.getLast? = some c ∧
        ∀ d ∈ (faultyService.HandleOnSearch demoRuntime demoPayload demoWorld).calls.dropLast,
          d.succeeded = true :=
  have hfault : (demoPayload ≠ [] ∧ demoRuntime.ParseBytes demoPayload
        = .panic "runtime error: invalid memory address or nil pointer dereference") ∨
      ∃ c ∈ (faultyService.HandleOnSearch demoRuntime demoPayload demoWorld).calls,
        c.fault = some "runtime error: invalid memory address or nil pointer dereference" :=
    Or.inr ⟨_, List.mem_cons_self _ _, rfl⟩
  ⟨hfault, recovery_boundary demoRuntime faultyService demoPayload demoWorld _ hfault⟩

/-- The concrete deployment rejects the callback whose `domain` is a number. -/
theorem type_mismatch_counts_as_missing_witness :
    demoPayloadNumericDomain ≠ [] ∧
    (demoService.HandleOnSearch demoRuntimeTyped demoPayloadNumericDomain demoWorld).err
        = some ErrMissingRequiredField ∧
    (demoService.HandleOnSearch demoRuntimeTyped demoPayloadNumericDomain demoWorld).calls
        = [] ∧
    (demoService.HandleOnSearch demoRuntimeTyped demoPayloadNumericDomain demoWorld).world
        = demoWorld :=
  ⟨by decide,
   type_mismatch_counts_as_missing demoRuntimeTyped demoService demoPayloadNumericDomain
     demoWorld (.object [("context", .object demoContextNumericDomain.kvs)]) (by decide) rfl
     (Or.inr ⟨demoContextNumericDomain, rfl, "domain", by decide, .number "18", rfl, rfl⟩)⟩

/-! ### The HTTP adapter and the error handler -/

/-- C13: with a service and a non-empty body, the adapter invokes the service on the body,
and it returns nil with status 202 and the body `{"status":"accepted"}` if and only if the
service returned nil; an error of the service is returned as it is, the response left
untouched.  With a service and an empty body, the adapter returns `ErrInvalidRequestBody`
and does not invoke the service. -/
theorem handler_acknowledges_iff_service_ok {σ : Type} (rt : Runtime σ)
    (service : OnSearchService σ) (c : Ctx) (w : σ) :
    (c.Body ≠ [] →
      (OnSearchHandler.HandleOnSearch rt { service := some service } c w).invoked
        = some (service.HandleOnSearch rt c.Body w) ∧
      (((OnSearchHandler.HandleOnSearch rt { service := some service } c w).err = none ∧
        (OnSearchHandler.HandleOnSearch rt { service := some service } c w).ctx.statusCode
          = 202 ∧
        (OnSearchHandler.HandleOnSearch rt { service := some service } c w).ctx.responseBody
          = c.JSONEncoder [("status", .str "accepted")])
        ↔ (service.HandleOnSearch rt c.Body w).err = none) ∧
      ∀ e, (service.HandleOnSearch rt c.Body w).err = some e →
        (OnSearchHandler.HandleOnSearch rt { service := some service } c w).err
          = some (.Custom e) ∧
        (OnSearchHandler.HandleOnSearch rt { service := some service } c w).ctx = c) ∧
    (c.Body = [] →
      (OnSearchHandler.HandleOnSearch rt { service := some service } c w).err
        = some (.Custom ErrInvalidRequestBody) ∧
      (OnSearchHandler.HandleOnSearch rt { service := some service } c w).invoked = none ∧
      (OnSearchHandler.HandleOnSearch rt { service := some service } c w).ctx = c ∧
      (OnSearchHandler.HandleOnSearch rt { service := some service } c w).world = w) := by
  constructor
  · intro hbody
    have hlen : ¬ c.Body.length = 0 := fun h => hbody (List.length_eq_zero.mp h)
    unfold OnSearchHandler.HandleOnSearch
    simp only [if_neg hlen]
    cases hs : (service.HandleOnSearch rt c.Body w).err with
    | none => simp [Ctx.JSON, Ctx.Status, StatusAccepted, encodeError]
    | some e => simp
  · intro hbody
    unfold OnSearchHandler.HandleOnSearch
    simp [hbody]

/-- The adapter of the concrete deployment acknowledges `demoPayload` and rejects an empty
body. -/
theorem handler_acknowledges_iff_service_ok_witness :
    (demoCtx demoPayload).Body ≠ [] ∧ (demoCtx []).Body = [] ∧
    (demoHandler.HandleOnSearch demoRuntime (demoCtx demoPayload) demoWorld).err = none ∧
    (demoHandler.HandleOnSearch demoRuntime (demoCtx demoPayload) demoWorld).ctx.statusCode
      = 202 ∧
    (demoHandler.HandleOnSearch demoRuntime (demoCtx demoPayload) demoWorld).ctx.responseBody
      = demoEncoder [("status", .str "accepted")] ∧
    (demoHandler.HandleOnSearch demoRuntime (demoCtx []) demoWorld).err
      = some (.Custom ErrInvalidRequestBody) ∧
    (demoHandler.HandleOnSearch demoRuntime (demoCtx []) demoWorld).invoked = none :=
  have hne : (demoCtx demoPayload).Body ≠ [] := by decide
  have hfull := (handler_acknowledges_iff_service_ok demoRuntime demoService
    (demoCtx demoPayload) demoWorld).1 hne
  have hok := hfull.2.1.mpr (by decide)
  have hempty := (handler_acknowledges_iff_service_ok demoRuntime demoService
    (demoCtx []) demoWorld).2 rfl
  ⟨hne, rfl, hok.1, hok.2.1, hok.2.2, hempty.1, hempty.2.1⟩

/-- Without a service the adapter answers every request, the empty body included, with
`ErrHTTPInternalServer`. -/
theorem handler_without_service {σ : Type} (rt : Runtime σ) (c : Ctx) (w : σ) :
    (OnSearchHandler.HandleOnSearch rt { service := none } c w).err
      = some (.Custom ErrHTTPInternalServer) := by
  rfl

theorem JSON_statusCode (c : Ctx) (m : FiberMap) : (c.JSON m).2.statusCode = c.statusCode := by
  unfold Ctx.JSON
  split <;> rfl

theorem JSON_of_encodes (c : Ctx) (m : FiberMap) (h : encodeError m = none) :
    c.JSON m
      = (none, { c with responseBody := c.JSONEncoder m, contentType := "application/json" }) := by
  unfold Ctx.JSON
  rw [h]

theorem JSON_of_fails (c : Ctx) (m : FiberMap) (err : String) (h : encodeError m = some err) :
    c.JSON m = (some (.Other err), c) := by
  unfold Ctx.JSON
  rw [h]

/-- The status the error handler leaves on the response for a `CustomError`. -/
theorem ErrorHandler_custom_status (c : Ctx) (e : CustomError) :
    (ErrorHandler c (.Custom e)).2.statusCode = if e.HTTPCode = 0 then 200 else e.HTTPCode := by
  simp only [ErrorHandler, JSON_statusCode, Ctx.Status]

/-- The status the error handler leaves on the response for an error that is neither a
`CustomError` nor a `fiber.Error`. -/
theorem ErrorHandler_other_status (c : Ctx) (msg : String) :
    (ErrorHandler c (.Other msg)).2.statusCode = 500 := by
  simp only [ErrorHandler, JSON_statusCode, Ctx.Status, StatusInternalServerError]
  rfl

/-- The map the error handler encodes for a `CustomError`: `request_id` is put in it
exactly when the locals of the context hold a request id that is not nil. -/
theorem ErrorHandler_custom_map (c : Ctx) (e : CustomError) :
    ∃ m : FiberMap,
      ErrorHandler c (.Custom e) = (c.Status e.HTTPCode).JSON m ∧
      mapGet m "error" = some (.str e.Message) ∧
      mapGet m "code" = some (.str e.Code) ∧
      mapGet m "details" = some e.Details ∧
      ((mapGet c.locals "request_id" = none ∨ mapGet c.locals "request_id" = some .null) →
        mapGet m "request_id" = none) ∧
      (∀ id, mapGet c.locals "request_id" = some id → id ≠ .null →
        mapGet m "request_id" = some id) ∧
      (∀ k, k ∈ m.map Prod.fst → k ∈ ["request_id", "error", "code", "details"]) ∧
      ((∀ err, e.Details ≠ .unencodable err) →
        (∀ err, mapGet c.locals "request_id" ≠ some (.unencodable err)) →
        encodeError m = none) := by
  cases hl : mapGet c.locals "request_id" with
  | none =>
    refine ⟨[("error", .str e.Message), ("code", .str e.Code), ("details", e.Details)],
      ?_, ?_⟩
    · simp [ErrorHandler, Ctx.Locals, hl]
    · refine ⟨rfl, rfl, rfl, fun _ => rfl, (fun id h => by cases h), (by simp), ?_⟩
      intro hd _
      cases hD : e.Details <;> simp_all [encodeError]
  | some id =>
    by_cases hid : id = .null
    · subst hid
      refine ⟨[("error", .str e.Message), ("code", .str e.Code), ("details", e.Details)],
        ?_, ?_⟩
      · simp [ErrorHandler, Ctx.Locals, hl]
      · refine ⟨rfl, rfl, rfl, fun _ => rfl, fun id h hn => ?_, (by simp), ?_⟩
        · injection h with h
          exact absurd h.symm hn
        · intro hd _
          cases hD : e.Details <;> simp_all [encodeError]
    · refine ⟨mapSet [("error", .str e.Message), ("code", .str e.Code),
        ("details", e.Details)] "request_id" id, ?_, ?_⟩
      · simp [ErrorHandler, Ctx.Locals, hl, hid]
      · refine ⟨(by simp [mapGet, mapSet]), (by simp [mapGet, mapSet]),
          (by simp [mapGet, mapSet]), ?_, ?_, (by simp [mapSet]), ?_⟩
        · rintro (h | h)
          · cases h
          · injection h with h
            exact absurd h hid
        · intro id2 h _
          injection h with h
          subst h
          simp [mapGet, mapSet]
        · intro hd hr
          cases hD : e.Details <;> cases id <;> simp_all [encodeError, mapSet]

/-- The map the error handler encodes for an error that is neither a `CustomError` nor a
`fiber.Error`. -/
theorem ErrorHandler_other_map (c : Ctx) (msg : String) :
    ∃ m : FiberMap,
      ErrorHandler c (.Other msg) = (c.Status StatusInternalServerError).JSON m ∧
      mapGet m "error" = some (.str "Internal server error") ∧
      ((mapGet c.locals "request_id" = none ∨ mapGet c.locals "request_id" = some .null) →
        mapGet m "request_id" = none) ∧
      (∀ id, mapGet c.locals "request_id" = some id → id ≠ .null →
        mapGet m "request_id" = some id) ∧
      (∀ k, k ∈ m.map Prod.fst → k ∈ ["request_id", "error"]) ∧
      ((∀ err, mapGet c.locals "request_id" ≠ some (.unencodable err)) →
        encodeError m = none) := by
  cases hl : mapGet c.locals "request_id" with
  | none =>
    refine ⟨[("error", .str "Internal server error")], ?_, ?_⟩
    · simp [ErrorHandler, Ctx.Locals, hl]
    · exact ⟨rfl, fun _ => rfl, (fun id h => by cases h), (by simp), fun _ => rfl⟩
  | some id =>
    by_cases hid : id = .null
    · subst hid
      refine ⟨[("error", .str "Internal server error")], ?_, ?_⟩
      · simp [ErrorHandler, Ctx.Locals, hl]
      · refine ⟨rfl, fun _ => rfl, fun id h hn => ?_, (by simp), fun _ => rfl⟩
        injection h with h
        exact absurd h.symm hn
    · refine ⟨mapSet [("error", .str "Internal server error")] "request_id" id, ?_, ?_⟩
      · simp [ErrorHandler, Ctx.Locals, hl, hid]
      · refine ⟨(by simp [mapGet, mapSet]), ?_, ?_, (by simp [mapSet]), ?_⟩
        · rintro (h | h)
          · cases h
          · injection h with h
            exact absurd h hid
        · intro id2 h _
          injection h with h
          subst h
          simp [mapGet, mapSet]
        · intro hr
          cases id <;> simp_all [encodeError, mapSet]

/-- C14, as amended: for a `CustomError` the error handler leaves the response with the
status `HTTPCode` when that is positive, and with the status 200 when it is 0 (a negative
`HTTPCode` is reported by `StatusCode()` as it is).  The map it
encodes holds `error` = Message, `code` = Code and `details` = Details, and holds
`request_id` exactly when the locals of the context hold a request id that is not nil (no
other member).  When the encoder accepts the map, as it does whenever Details and the
request id are nil, strings or other values it can encode, the handler returns nil and the
encoding is the JSON body; when the encoder rejects the map, the handler returns the
encoder's error and writes no body.  For an error that is neither a `CustomError` nor a
`fiber.Error` the status is 500 and the map holds `error` = "Internal server error", with
`request_id` under the same condition. -/
theorem ErrorHandler_response (c : Ctx) :
    (∀ e : CustomError,
      (0 < e.HTTPCode → (ErrorHandler c (.Custom e)).2.statusCode = e.HTTPCode) ∧
      (e.HTTPCode = 0 → (ErrorHandler c (.Custom e)).2.statusCode = 200) ∧
      (ErrorHandler c (.Custom e)).2.statusCode
        = (if e.HTTPCode = 0 then 200 else e.HTTPCode) ∧
      ∃ m : FiberMap,
        mapGet m "error" = some (.str e.Message) ∧
        mapGet m "code" = some (.str e.Code) ∧
        mapGet m "details" = some e.Details ∧
        ((mapGet c.locals "request_id" = none ∨ mapGet c.locals "request_id" = some .null) →
          mapGet m "request_id" = none) ∧
        (∀ id, mapGet c.locals "request_id" = some id → id ≠ .null →
          mapGet m "request_id" = some id) ∧
        (∀ k, k ∈ m.map Prod.fst → k ∈ ["request_id", "error", "code", "details"]) ∧
        ((∀ err, e.Details ≠ .unencodable err) →
          (∀ err, mapGet c.locals "request_id" ≠ some (.unencodable err)) →
          encodeError m = none) ∧
        (encodeError m = none →
          (ErrorHandler c (.Custom e)).1 = none ∧
          (ErrorHandler c (.Custom e)).2.responseBody = c.JSONEncoder m ∧
          (ErrorHandler c (.Custom e)).2.contentType = "application/json") ∧
        (∀ err, encodeError m = some err →
          (ErrorHandler c (.Custom e)).1 = some (.Other err) ∧
          (ErrorHandler c (.Custom e)).2.responseBody = c.responseBody)) ∧
    (∀ msg : String,
      (ErrorHandler c (.Other msg)).2.statusCode = 500 ∧
      ∃ m : FiberMap,
        mapGet m "error" = some (.str "Internal server error") ∧
        ((mapGet c.locals "request_id" = none ∨ mapGet c.locals "request_id" = some .null) →
          mapGet m "request_id" = none) ∧
        (∀ id, mapGet c.locals "request_id" = some id → id ≠ .null →
          mapGet m "request_id" = some id) ∧
        (∀ k, k ∈ m.map Prod.fst → k ∈ ["request_id", "error"]) ∧
        ((∀ err, mapGet c.locals "request_id" ≠ some (.unencodable err)) →
          encodeError m = none) ∧
        (encodeError m = none →
          (ErrorHandler c (.Other msg)).1 = none ∧
          (ErrorHandler c (.Other msg)).2.responseBody = c.JSONEncoder m ∧
          (ErrorHandler c (.Other msg)).2.contentType = "application/json") ∧
        (∀ err, encodeError m = some err →
          (ErrorHandler c (.Other msg)).1 = some (.Other err) ∧
          (ErrorHandler c (.Other msg)).2.responseBody = c.responseBody)) := by
  constructor
  · intro e
    obtain ⟨m, hm, h1, h2, h3, h4, h5, h6, h7⟩ := ErrorHandler_custom_map c e
    refine ⟨?_, ?_, ErrorHandler_custom_status c e, m, h1, h2, h3, h4, h5, h6, h7, ?_, ?_⟩
    · intro hz
      rw [ErrorHandler_custom_status, if_neg (by omega)]
    · intro hz
      rw [ErrorHandler_custom_status, if_pos hz]
    · intro henc
      rw [hm, JSON_of_encodes _ _ henc]
      exact ⟨rfl, rfl, rfl⟩
    · intro err henc
      rw [hm, JSON_of_fails _ _ err henc]
      exact ⟨rfl, rfl⟩
  · intro msg
    obtain ⟨m, hm, h1, h4, h5, h6, h7⟩ := ErrorHandler_other_map c msg
    refine ⟨ErrorHandler_other_status c msg, m, h1, h4, h5, h6, h7, ?_, ?_⟩
    · intro henc
      rw [hm, JSON_of_encodes _ _ henc]
      exact ⟨rfl, rfl, rfl⟩
    · intro err henc
      rw [hm, JSON_of_fails _ _ err henc]
      exact ⟨rfl, rfl⟩

/-- The error handler of the concrete deployment answers `ErrMissingRequiredField`, on a
request that carries a request id, with status 400 and the four members; an error of
another type with status 500. -/
theorem ErrorHandler_response_witness :
    0 < ErrMissingRequiredField.HTTPCode ∧
    (ErrorHandler ((demoCtx demoPayloadNoDomain).SetLocals "request_id" (.str "r-1"))
      (.Custom ErrMissingRequiredField)).2.statusCode = 400 ∧
    (ErrorHandler ((demoCtx demoPayloadNoDomain).SetLocals "request_id" (.str "r-1"))
      (.Custom ErrMissingRequiredField)).1 = none ∧
    (ErrorHandler ((demoCtx demoPayloadNoDomain).SetLocals "request_id" (.str "r-1"))
      (.Custom ErrMissingRequiredField)).2.responseBody
      = demoEncoder [("request_id", .str "r-1"), ("error", .str "Missing required field"),
          ("code", .str "REQUEST_2002"), ("details", .null)] ∧
    (ErrorHandler (demoCtx demoPayloadNoDomain) (.Custom ErrMissingRequiredField)).2.responseBody
      = demoEncoder [("error", .str "Missing required field"),
          ("code", .str "REQUEST_2002"), ("details", .null)] ∧
    (ErrorHandler (demoCtx demoPayloadNoDomain) (.Other "boom")).2.statusCode = 500 :=
  ⟨by decide,
   ((ErrorHandler_response ((demoCtx demoPayloadNoDomain).SetLocals "request_id"
      (.str "r-1"))).1 ErrMissingRequiredField).1 (by decide),
   rfl, rfl, rfl,
   ((ErrorHandler_response (demoCtx demoPayloadNoDomain)).2 "boom").1⟩

/-- C14 as stated fails for a `CustomError` whose `HTTPCode` is 0, which the response
reports as 200, and for one whose `Details` the encoder rejects: the handler returns the
encoder's error and the response has no body. -/
theorem ErrorHandler_response_refuted :
    (NewCustomError 0 "HTTP_0" "no status" []).HTTPCode = 0 ∧
    (ErrorHandler (demoCtx demoPayload)
      (.Custom (NewCustomError 0 "HTTP_0" "no status" []))).2.statusCode = 200 ∧
    (ErrorHandler (demoCtx demoPayload)
      (.Custom (NewCustomError 0 "HTTP_0" "no status" []))).2.statusCode
      ≠ (NewCustomError 0 "HTTP_0" "no status" []).HTTPCode ∧
    (NewCustomError 500 "HTTP_500" "Internal Server Error"
      [.unencodable "json: unsupported type: chan int"]).Details
      = .unencodable "json: unsupported type: chan int" ∧
    (ErrorHandler (demoCtx demoPayload)
      (.Custom (NewCustomError 500 "HTTP_500" "Internal Server Error"
        [.unencodable "json: unsupported type: chan int"]))).1
      = some (.Other "json: unsupported type: chan int") ∧
    (ErrorHandler (demoCtx demoPayload)
      (.Custom (NewCustomError 500 "HTTP_500" "Internal Server Error"
        [.unencodable "json: unsupported type: chan int"]))).2.responseBody = [] :=
  ⟨rfl, rfl, by decide, rfl, rfl, rfl⟩

/-! ### The Kafka publisher -/

theorem splitChars_ne_nil (sep : List Char) (skip : Nat) (cur cs : List Char) :
    splitChars sep skip cur cs ≠ [] := by
  induction cs generalizing skip cur with
  | nil => simp [splitChars]
  | cons c cs ih =>
    cases skip with
    | zero =>
      unfold splitChars
      split
      · simp
      · exact ih 0 (c :: cur)
    | succ n =>
      unfold splitChars
      exact ih n cur

theorem Split_comma_length (s : String) : 1 ≤ (Split s ",").length := by
  have hsep : ¬ (",".data = []) := by decide
  unfold Split
  rw [if_neg hsep, List.length_map]
  exact List.length_pos.mpr (splitChars_ne_nil _ _ _ _)

/-- C16: splitting any broker string on `,` yields at least one piece, so
`NewKafkaPublisher` never takes the "no kafka brokers configured" branch: for every
configuration it returns a publisher whose writer is addressed at the pieces, and for the
empty broker string at the single address `""`. -/
theorem NewKafkaPublisher_never_fails (cfg : KafkaConfig) :
    1 ≤ (Split cfg.Brokers ",").length ∧
    (∀ msg, NewKafkaPublisher cfg ≠ .error msg) ∧
    (∃ p, NewKafkaPublisher cfg = .ok p ∧ p.writer.Addr = Split cfg.Brokers ",") ∧
    (cfg.Brokers = "" →
      ∃ p, NewKafkaPublisher cfg = .ok p ∧ p.writer.Addr = [""]) := by
  have hlen := Split_comma_length cfg.Brokers
  have hne : ¬ (Split cfg.Brokers ",").length = 0 := by omega
  have hok : NewKafkaPublisher cfg
      = .ok { writer := { Addr := Split cfg.Brokers ",", Balancer := "LeastBytes",
                          RequiredAcks := -1, Async := false } } := by
    unfold NewKafkaPublisher
    simp only [if_neg hne]
  refine ⟨hlen, ?_, ⟨_, hok, rfl⟩, ?_⟩
  · intro msg hc
    rw [hok] at hc
    cases hc
  · intro hempty
    refine ⟨_, hok, ?_⟩
    rw [hempty]
    rfl

/-! ### The logging middleware -/

/-- C17: in a run of the middleware that ends with an error `err` that is not a
`*fiber.Error` (the error is the one the rest of the chain returned), every status code
passed to `log.RequestEnd` is 500, and on a path that is not skipped exactly one is passed;
on a skipped path nothing is logged.  For a `CustomError` whose `HTTPCode` is not 500 the
error handler then answers the client with `HTTPCode` (with 200 when `HTTPCode` is 0), which
no logged status equals. -/
theorem logged_status_is_500 {σ : Type} (newUUID : σ → String × σ)
    (config : List LoggingConfig) (next : Handler σ) (c : Ctx) (w : σ) (err : GoError)
    (herr : (LoggingMiddleware newUUID config next c w).err = some err)
    (hnf : ∀ code message, err ≠ .Fiber code message) :
    (LoggingMiddleware newUUID config next c w).err
      = (if c.Path ∈ (loggingCfg config).SkipPaths then (next c w).1
         else (next (c.SetLocals "request_id" (.str (newUUID w).1)) (newUUID w).2).1) ∧
    (∀ st ∈ (LoggingMiddleware newUUID config next c w).log.filterMap LogCall.endStatus,
      st = 500) ∧
    (c.Path ∉ (loggingCfg config).SkipPaths →
      (LoggingMiddleware newUUID config next c w).log.filterMap LogCall.endStatus = [500]) ∧
    (c.Path ∈ (loggingCfg config).SkipPaths →
      (LoggingMiddleware newUUID config next c w).log = []) ∧
    ∀ e : CustomError, err = .Custom e → e.HTTPCode ≠ 500 →
      (ErrorHandler (LoggingMiddleware newUUID config next c w).ctx err).2.statusCode
        = (if e.HTTPCode = 0 then 200 else e.HTTPCode) ∧
      ∀ st ∈ (LoggingMiddleware newUUID config next c w).log.filterMap LogCall.endStatus,
        st ≠ (ErrorHandler (LoggingMiddleware newUUID config next c w).ctx err).2.statusCode
    := by
  have hany : (loggingCfg config).SkipPaths.any (fun skipPath => c.Path == skipPath) = true
      ↔ c.Path ∈ (loggingCfg config).SkipPaths := by
    rw [List.any_eq_true]
    constructor
    · rintro ⟨x, hx, hc⟩
      have : c.Path = x := by simpa using hc
      exact this ▸ hx
    · intro h
      exact ⟨c.Path, h, by simp⟩
  have hrun : (LoggingMiddleware newUUID config next c w).err
        = (if c.Path ∈ (loggingCfg config).SkipPaths then (next c w).1
           else (next (c.SetLocals "request_id" (.str (newUUID w).1)) (newUUID w).2).1) ∧
      (c.Path ∉ (loggingCfg config).SkipPaths →
        (LoggingMiddleware newUUID config next c w).log.filterMap LogCall.endStatus
          = [500]) ∧
      (c.Path ∈ (loggingCfg config).SkipPaths →
        (LoggingMiddleware newUUID config next c w).log = []) := by
    by_cases hskip : c.Path ∈ (loggingCfg config).SkipPaths
    · have hs := hany.mpr hskip
      unfold LoggingMiddleware at herr ⊢
      simp only [hs, if_true] at herr ⊢
      simp [hskip]
    · have hs : (loggingCfg config).SkipPaths.any (fun skipPath => c.Path == skipPath)
          = false := by
        cases hb : (loggingCfg config).SkipPaths.any (fun skipPath => c.Path == skipPath)
        · rfl
        · exact absurd (hany.mp hb) hskip
      unfold LoggingMiddleware at herr ⊢
      simp only [hs, Bool.false_eq_true, if_false] at herr ⊢
      rcases hn : next (c.SetLocals "request_id" (.str (newUUID w).1)) (newUUID w).2
        with ⟨e0, c1, w1⟩
      rw [hn] at herr
      simp only at herr
      subst herr
      simp only [hn, if_neg hskip]
      refine ⟨by trivial, fun _ => ?_, fun h => absurd h hskip⟩
      cases err with
      | Fiber code message => exact absurd rfl (hnf code message)
      | Custom e => split <;> simp [LogCall.endStatus, StatusInternalServerError]
      | Other msg => split <;> simp [LogCall.endStatus, StatusInternalServerError]
  have hall : ∀ st ∈ (LoggingMiddleware newUUID config next c w).log.filterMap
      LogCall.endStatus, st = 500 := by
    intro st hst
    by_cases hskip : c.Path ∈ (loggingCfg config).SkipPaths
    · rw [hrun.2.2 hskip] at hst
      simp at hst
    · rw [hrun.2.1 hskip] at hst
      simpa using hst
  refine ⟨hrun.1, hall, hrun.2.1, hrun.2.2, ?_⟩
  intro e he hcode
  subst he
  have hst : (ErrorHandler (LoggingMiddleware newUUID config next c w).ctx
      (.Custom e)).2.statusCode = (if e.HTTPCode = 0 then 200 else e.HTTPCode) :=
    ErrorHandler_custom_status _ e
  refine ⟨hst, ?_⟩
  intro st hmem
  rw [hst, hall st hmem]
  split
  · decide
  · exact fun hc => hcode hc.symm

/-- The concrete deployment logs 500 for the callback without `domain`, which the client
sees answered with 400. -/
theorem logged_status_is_500_witness :
    (LoggingMiddleware demoRuntime.NewString [] (demoHandler.toHandler demoRuntime)
      (demoCtx demoPayloadNoDomain) demoWorld).err = some (.Custom ErrMissingRequiredField) ∧
    (demoCtx demoPayloadNoDomain).Path ∉ (loggingCfg []).SkipPaths ∧
    (LoggingMiddleware demoRuntime.NewString [] (demoHandler.toHandler demoRuntime)
      (demoCtx demoPayloadNoDomain) demoWorld).log.filterMap LogCall.endStatus = [500] ∧
    (ErrorHandler (LoggingMiddleware demoRuntime.NewString [] (demoHandler.toHandler demoRuntime)
      (demoCtx demoPayloadNoDomain) demoWorld).ctx
      (.Custom ErrMissingRequiredField)).2.statusCode = 400 :=
  have herr : (LoggingMiddleware demoRuntime.NewString [] (demoHandler.toHandler demoRuntime)
      (demoCtx demoPayloadNoDomain) demoWorld).err
        = some (.Custom ErrMissingRequiredField) := by
    decide
  have hpath : (demoCtx demoPayloadNoDomain).Path ∉ (loggingCfg []).SkipPaths := by decide
  have hall := logged_status_is_500 demoRuntime.NewString [] (demoHandler.toHandler demoRuntime)
    (demoCtx demoPayloadNoDomain) demoWorld (.Custom ErrMissingRequiredField) herr
    (fun _ _ hc => by cases hc)
  ⟨herr, hpath, hall.2.2.1 hpath,
   (hall.2.2.2.2 ErrMissingRequiredField rfl (by decide)).1⟩
